import Mathlib

/-!
Verification of the Gibberish interpreter (`gib.py`).

This file gives a shallow embedding of the interpreter's core in Lean 4 and
settles a list of claims about it.  Python 2 semantics that the source relies
on are modelled explicitly:

* `NUMT = float` is modelled as `ℚ` (the claims never exercise rounding,
  infinities or NaN); `int()` on a number truncates toward zero (`pyInt`);
* CPython list indexing admits negative indices counting from the end
  (`pyRes`), `list.insert` clamps its index and never fails, `del l[i]` and
  reads raise `IndexError` out of range;
* Python truthiness: `0.0` and the empty string are falsy, everything else
  is truthy;
* `func(*args)` with a non-sequence `args` raises `TypeError` (`sfPush`).

The stack is a `List Value` in Python order: index 0 is the bottom,
the last element is the top of the stack.
-/

namespace Gib

/-- The two value variants of the language: `NUMT = float` (modelled as `ℚ`)
and `STRT = str`. -/
inductive Value where
  | num (q : ℚ)
  | str (s : String)
deriving DecidableEq

/-!
Arithmetic on `ℚ` is written through `Rat.divInt`-based wrappers rather than
the `Field ℚ` operations, so that every definition in this file evaluates
inside the kernel (`Rat.add` and friends are `@[irreducible]`).  The
`qAdd_eq` … lemmas below show the wrappers agree with the field operations.
-/

/-- Addition of two rationals (source: Python float `+`, modelled exactly). -/
def qAdd (a b : ℚ) : ℚ := Rat.divInt (a.num * b.den + b.num * a.den) (a.den * b.den)

/-- Subtraction of two rationals. -/
def qSub (a b : ℚ) : ℚ := Rat.divInt (a.num * b.den - b.num * a.den) (a.den * b.den)

/-- Multiplication of two rationals. -/
def qMul (a b : ℚ) : ℚ := Rat.divInt (a.num * b.num) (a.den * b.den)

/-- Division of two rationals (call sites guard against a zero divisor). -/
def qDiv (a b : ℚ) : ℚ := Rat.divInt (a.num * b.den) (a.den * b.num)

/-- Negation of a rational. -/
def qNeg (a : ℚ) : ℚ := Rat.neg a

/-- Python `int()` applied to a number: truncation toward zero
(`Int.tdiv` is T-division). -/
def pyInt (q : ℚ) : ℤ := q.num.tdiv q.den

/-- CPython sequence-index resolution: a negative index counts from the end;
returns the resolved non-negative index, or `none` (IndexError). -/
def pyRes (len : Nat) (i : ℤ) : Option Nat :=
  let j := if i < 0 then i + len else i
  if 0 ≤ j ∧ j < (len : ℤ) then some j.toNat else none

/-- `l[i]` with CPython index semantics. -/
def pyGet (l : List Value) (i : ℤ) : Option Value :=
  (pyRes l.length i).bind fun j => l.get? j

/-- `del l[i]` with CPython index semantics. -/
def pyDel (l : List Value) (i : ℤ) : Option (List Value) :=
  (pyRes l.length i).map fun j => l.eraseIdx j

/-- `l[i] = v` with CPython index semantics. -/
def pySet (l : List Value) (i : ℤ) (v : Value) : Option (List Value) :=
  (pyRes l.length i).map fun j => l.set j v

/-- The index at which CPython's `list.insert(i, v)` actually inserts:
negative indices count from the end, and the result is clamped to
`[0, len]`.  `list.insert` never raises. -/
def pyInsertIdx (len : Nat) (i : ℤ) : Nat :=
  let j := if i < 0 then i + len else i
  if j < 0 then 0 else min j.toNat len

namespace Stack

/-- `Stack.push`: appends; booleans/ints are normalised to `NUMT` by the
callers constructing `Value.num` directly. -/
def push (l : List Value) (v : Value) : List Value := l ++ [v]

/-- `Stack.pop`: Python `list.pop()` removes and returns the last element,
raising `IndexError` on an empty list. -/
def pop (l : List Value) : Option (Value × List Value) :=
  match l.getLast? with
  | some v => some (v, l.dropLast)
  | none => none

/-- `Stack.swapn(n)`: `foo = stack[-1-n]; stack[-1-n] = stack[-1];
stack[-1] = foo` after `n = int(n)`. -/
def swapn (l : List Value) (n : ℚ) : Option (List Value) := do
  let i : ℤ := -1 - pyInt n
  let vj ← pyGet l i
  let vk ← pyGet l (-1)
  let l1 ← pySet l i vk
  pySet l1 (-1) vj

/-- `Stack.copy(n)`: `stack.append(stack[-1-n])` after `n = int(n)`. -/
def copy (l : List Value) (n : ℚ) : Option (List Value) :=
  (pyGet l (-1 - pyInt n)).map fun v => l ++ [v]

/-- `Stack.move(n)`: `stack.append(stack[-1-n]); del stack[-1-n]`, the
delete running on the already-extended list. -/
def move (l : List Value) (n : ℚ) : Option (List Value) := do
  let v ← pyGet l (-1 - pyInt n)
  pyDel (l ++ [v]) (-1 - pyInt n)

/-- `Stack.insert(n, value)`: `stack.insert(-n-1, value)` after
`n = int(n)`; CPython `list.insert` clamps and never fails. -/
def insert (l : List Value) (n : ℚ) (v : Value) : List Value :=
  l.insertIdx (pyInsertIdx l.length (-(pyInt n) - 1)) v

/-- `Stack.invcopy(n)`: `stack.append(stack[n])` after `n = int(n)` —
indexing from the bottom. -/
def invcopy (l : List Value) (n : ℚ) : Option (List Value) :=
  (pyGet l (pyInt n)).map fun v => l ++ [v]

/-- `Stack.invmove(n)`: `stack.append(stack[n]); del stack[n]`, the delete
running on the already-extended list at the same bottom index. -/
def invmove (l : List Value) (n : ℚ) : Option (List Value) := do
  let v ← pyGet l (pyInt n)
  pyDel (l ++ [v]) (pyInt n)

/-- `Stack.dup = copy(0)`. -/
def dup (l : List Value) : Option (List Value) := copy l 0

/-- `Stack.swap = swapn(1)`. -/
def swap (l : List Value) : Option (List Value) := swapn l 1

/-- `Stack.swap2 = swapn(2)`. -/
def swap2 (l : List Value) : Option (List Value) := swapn l 2

/-- `Stack.swap3 = swapn(3)`. -/
def swap3 (l : List Value) : Option (List Value) := swapn l 3

end Stack

/-! ## Parser -/

/-- A parsed program element: `Parser.Item` is either a push-constant or a
single-character command. -/
inductive Item where
  | constant (v : Value)
  | command (c : Char)
deriving DecidableEq

/-- `errstr(code, error, position)`: the error message with a context window
of up to 5 characters before and after the focal index. -/
def errstr (code : List Char) (error : String) (position : Nat) : String :=
  let amt1 := position - 5
  let prev0 := String.mk ((code.take position).drop amt1)
  let prev := if amt1 ≠ 0 then "..." ++ prev0 else prev0
  let amt2 := min (position + 6) code.length
  let next0 := String.mk ((code.take amt2).drop (position + 1))
  let next := if amt2 ≠ code.length then next0 ++ "..." else next0
  error ++ " at position " ++ toString position ++ " (" ++ prev ++ " ->" ++
    String.mk [code.getD position ' '] ++ "<- " ++ next ++ ")"

/-- A `ValueError` raised by `Parser.parse`, keeping the label and position
passed to `errstr` alongside the formatted message. -/
structure ParseError where
  label : String
  pos : Nat
  msg : String
deriving DecidableEq

/-- Nesting-level update of the bracket scan: `]` decrements, `[` increments,
anything else is kept. -/
def bracketStep (c : Char) (lvl : Nat) : Nat :=
  if c = ']' then lvl - 1 else if c = '[' then lvl + 1 else lvl

/-- Content accumulation of the bracket scan: the character is appended
whenever the updated level is nonzero (so the final `]` is dropped but inner
brackets are kept). -/
def bracketAcc (c : Char) (lvl1 : Nat) (cur : List Char) : List Char :=
  if lvl1 ≠ 0 then cur ++ [c] else cur

/-- The mode of the parse loop: scanning top-level source, or inside a
bracketed string constant (the source's inner `while lvl > 0` loop) with the
current nesting level and accumulated content. -/
inductive PMode where
  | normal
  | inBracket (lvl : Nat) (cur : List Char)

/-- The numeric value of a digit character, as pushed by the parser
(`NUMT(string[i])`). -/
def digitVal (c : Char) : ℚ := ((c.toNat - 48 : ℕ) : ℚ)

/-- `Parser.parse` as a single left-to-right pass (the source's outer loop
with the bracket loop fused in as a mode): digits push single-digit number
constants, `[`…`]` accumulates a string constant tracking nesting (the final
`]` is dropped, inner brackets kept), whitespace is ignored, a stray `]` is
an error at its own position, anything else is a command.  Running out of
characters inside a bracket raises "unterminated [" at the last index of the
source (`i1 - 1` in the source, where `i1` is the first out-of-bounds
index).  `rem` is the suffix `cs.drop i`. -/
def parseLoop (cs : List Char) : List Char → Nat → PMode → List Item →
    Except ParseError (List Item)
  | [], _, .normal, acc => .ok acc
  | [], i, .inBracket _ _, _ =>
    .error ⟨"unterminated [", i - 1, errstr cs "unterminated [" (i - 1)⟩
  | c :: rest, i, .normal, acc =>
    if c.isDigit then
      parseLoop cs rest (i + 1) .normal (acc ++ [.constant (.num (digitVal c))])
    else if c = '[' then parseLoop cs rest (i + 1) (.inBracket 1 []) acc
    else if c = ' ' ∨ c = '\n' ∨ c = '\t' then parseLoop cs rest (i + 1) .normal acc
    else if c = ']' then .error ⟨"] without [", i, errstr cs "] without [" i⟩
    else parseLoop cs rest (i + 1) .normal (acc ++ [.command c])
  | c :: rest, i, .inBracket lvl cur, acc =>
    let lvl1 := bracketStep c lvl
    let cur1 := bracketAcc c lvl1 cur
    if lvl1 = 0 then
      parseLoop cs rest (i + 1) .normal (acc ++ [.constant (.str (String.mk cur1))])
    else parseLoop cs rest (i + 1) (.inBracket lvl1 cur1) acc

/-- `Parser.parse`: source characters to a list of Items. -/
def parse (cs : List Char) : Except ParseError (List Item) :=
  parseLoop cs cs 0 .normal []

/-! ## Truthiness and numeric conversion of strings -/

/-- Python truthiness: `0.0` is false, the empty string is false, everything
else is true. -/
def Value.truthy : Value → Bool
  | .num q => if q = 0 then false else true
  | .str s => if s = "" then false else true

/-- Whitespace stripped by Python's numeric string conversions. -/
def isPyWS (c : Char) : Bool :=
  c = ' ' ∨ c = '\t' ∨ c = '\n' ∨ c = '\r'

/-- Strip leading and trailing whitespace. -/
def stripWS (cs : List Char) : List Char :=
  ((cs.dropWhile isPyWS).reverse.dropWhile isPyWS).reverse

/-- Numeric value of a digit string. -/
def digitsVal (cs : List Char) : ℕ :=
  cs.foldl (fun a c => a * 10 + (c.toNat - 48)) 0

/-- Python `int(string)`: optional sign and a nonempty run of digits,
surrounding whitespace allowed.  (Exotic forms — underscores, unicode
digits — are outside the model.) -/
def pyParseIntStr (s : String) : Option ℤ :=
  let cs := stripWS s.toList
  match cs with
  | '+' :: rest =>
    if rest ≠ [] ∧ rest.all Char.isDigit then some (digitsVal rest) else none
  | '-' :: rest =>
    if rest ≠ [] ∧ rest.all Char.isDigit then some (-(digitsVal rest : ℤ)) else none
  | _ => if cs ≠ [] ∧ cs.all Char.isDigit then some (digitsVal cs) else none

/-- The unsigned part of Python `float(string)`: `ddd`, `ddd.`, `ddd.ddd` or
`.ddd`. -/
def parseUnsignedFloat (cs : List Char) : Option ℚ :=
  let intPart := cs.takeWhile Char.isDigit
  let rest := cs.dropWhile Char.isDigit
  match rest with
  | [] => if intPart ≠ [] then some ((digitsVal intPart : ℕ) : ℚ) else none
  | '.' :: frac =>
    if frac.all Char.isDigit ∧ (intPart ≠ [] ∨ frac ≠ []) then
      some (Rat.divInt
        ((digitsVal intPart * 10 ^ frac.length + digitsVal frac : ℕ) : ℤ)
        ((10 ^ frac.length : ℕ) : ℤ))
    else none
  | _ => none

/-- Python `float(string)`: optional sign and an unsigned decimal literal,
surrounding whitespace allowed.  (Exponents, `inf` and `nan` are outside the
model.) -/
def pyParseFloatStr (s : String) : Option ℚ :=
  let cs := stripWS s.toList
  match cs with
  | '+' :: rest => parseUnsignedFloat rest
  | '-' :: rest => (parseUnsignedFloat rest).map Neg.neg
  | _ => parseUnsignedFloat cs

/-- The fractional digits of `str(float)` rendering (model: exact decimal
expansion, at most `fuel` digits, trailing zeros dropped). -/
def fracDigits (q : ℚ) : Nat → List Char
  | 0 => []
  | fuel + 1 =>
    if q = 0 then []
    else
      let q10 := qMul q 10
      let d := Rat.floor q10
      let rest := fracDigits (qSub q10 ((d : ℤ) : ℚ)) fuel
      if rest = [] ∧ d = 0 then [] else Char.ofNat (d.toNat + 48) :: rest

/-- Python `str()` of a float value (model: exact decimal rendering; in this
development only reachable for values produced by `pyParseFloatStr`). -/
def pyFloatStr (q : ℚ) : String :=
  if q.den = 1 then toString q.num ++ ".0"
  else
    let sign := if Rat.blt q 0 then "-" else ""
    let a := if Rat.blt q 0 then qNeg q else q
    let ip := Rat.floor a
    let frac := fracDigits (qSub a ((ip : ℤ) : ℚ)) 64
    sign ++ toString ip ++ "." ++ String.mk frac

/-- Python `int(v)` for a Value: truncation for numbers (total on ℚ; NaN and
infinities are outside the model), digit-string parsing for strings. -/
def pyIntOf : Value → Option ℤ
  | .num q => some (pyInt q)
  | .str s => pyParseIntStr s

/-- Python `float(v)` for a Value. -/
def pyFloatOf : Value → Option ℚ
  | .num q => some q
  | .str s => pyParseFloatStr s

/-- `Interpreter.v2str(n)`: empty strings and strings that begin or end with
a space are returned as-is; otherwise `str(int(n))` is tried first (for a
number this truncates toward zero and always succeeds in the rational
model), then `str(float(n))`, then `str(n)`. -/
def v2str (n : Value) : String :=
  match n with
  | .str s =>
    if s = "" then s
    else if s.front = ' ' ∨ s.back = ' ' then s
    else
      match pyParseIntStr s with
      | some k => toString k
      | none =>
        match pyParseFloatStr s with
        | some q => pyFloatStr q
        | none => s
  | .num q => toString (pyInt q)

/-! ## Errors -/

/-- The value types for error reporting (`typedesc`). -/
inductive Ty where
  | numT
  | strT
deriving DecidableEq

/-- `typedesc`. -/
def typedesc : Ty → String
  | .numT => "number"
  | .strT => "string"

/-- The type tag of a value. -/
def Value.tyOf : Value → Ty
  | .num _ => .numT
  | .str _ => .strT

/-- The raw (non-CodeError, non-ValueError) Python exceptions that can escape
a child interpreter and be caught by `recurse`'s final `except Exception`. -/
inductive OtherExcKind where
  | zeroDivE                                -- ZeroDivisionError
  | typeE (msg : String)                    -- TypeError
  | indexE                                  -- IndexError
deriving DecidableEq

/-- The payload of an `Interpreter.CodeError`, one constructor per `raise`
site of the source (the formatted message is a function of these fields). -/
inductive EKind where
  | stackErr                                -- sf: "stack error (...)"
  | wrongType (expected got : Ty)           -- raiseTypeErr
  | wrongTypeNum                            -- cActivateSet: "wrong type: expected number"
  | noInstrSet (k : ℤ)                      -- cActivateSet: "no instruction set %d exists"
  | noSuchSet (k : ℤ)                       -- step: "no such set: %d"
  | noSuchCmd (k : ℤ) (c : Char)            -- step: "set %d has no command '%s'"
  | divZero                                 -- step: "division by zero (...)"
  | idxOutOfBounds (len : Nat) (idx : ℤ)    -- cCharAt / cReplaceChar
  | execParseFail (msg : String)            -- recurse: "exec: parsing of string failed"
  | execRuntime (inner : EKind) (innerIp : ℤ) -- recurse: "exec: sub-interpreter runtime error"
  | execFailed (e : OtherExcKind)           -- recurse: "exec: sub-interpreter failed"
deriving DecidableEq

/-- A Python exception escaping a handler: either an `Interpreter.CodeError`
(which records the ip used by `items_errstr`), or one of the raw exceptions
the source lets propagate. -/
inductive RawErr where
  | codeError (k : EKind) (ip : ℤ)
  | zeroDiv                                 -- raw ZeroDivisionError (pre step-wrap)
  | pyTypeError (msg : String)              -- raw TypeError
  | indexErr                                -- raw IndexError (not routed through sf)
  | valueError (pe : ParseError)            -- ValueError from Parser.parse
  | negShift                                -- ValueError("negative shift count")
deriving DecidableEq

/-! ## Interpreter state -/

/-- The world state shared by all interpreters: the stack, accumulated
stdout, and remaining stdin. -/
structure St where
  stack : List Value
  out : String
  inp : List Char
deriving DecidableEq

/-- Per-interpreter state: program, instruction pointer and active set
(Python ints). -/
structure Frame where
  code : List Item
  ip : ℤ
  activeset : ℤ
deriving DecidableEq

/-- Result of running one command handler. -/
inductive CmdRes where
  | ok (f : Frame) (s : St)
  | raise (e : RawErr) (s : St)
  | quitR (s : St)
  | fuelOut (s : St)
deriving DecidableEq

/-- `self.code[self.ip]` — CPython list indexing (negative ip wraps; a very
negative ip raises a raw IndexError). -/
def pyItemGet (l : List Item) (i : ℤ) : Option Item :=
  (pyRes l.length i).bind fun j => l.get? j

/-- `self.sf(self.stack.pop, [])`: a pop whose IndexError is re-raised as a
CodeError "stack error". -/
def popSf (f : Frame) (st : St) : Except (RawErr × St) (Value × St) :=
  match Stack.pop st.stack with
  | some (v, s') => .ok (v, { st with stack := s' })
  | none => .error (.codeError .stackErr f.ip, st)

/-- `if ntype and not isinstance(a, ntype)`: returns the
(expected, got) pair when the check fails. -/
def tyCheck (want : Option Ty) (v : Value) : Option (Ty × Ty) :=
  match want with
  | some t => if v.tyOf = t then none else some (t, v.tyOf)
  | none => none

/-- A Python argument pack for `func(*args)`: a genuine sequence, or a bare
non-sequence value (which raises TypeError at the call). -/
inductive PyArgs where
  | seq (args : List Value)
  | scalar (v : Value)

/-- `self.sf(self.stack.push, args)`: unpacking a non-sequence raises a raw
TypeError (sf only catches IndexError); a sequence is pushed element-wise
(`push` itself never fails). -/
def sfPush (f : Frame) (st : St) (args : PyArgs) : CmdRes :=
  match args with
  | .scalar _ => .raise (.pyTypeError "argument after * must be a sequence") st
  | .seq l => .ok f { st with stack := l.foldl Stack.push st.stack }

/-- `self.sf(op, [])` for a whole-stack operation (`dup`, `swap`, …): an
IndexError becomes a CodeError "stack error". -/
def sfStackOp (op : List Value → Option (List Value)) (f : Frame) (st : St) :
    CmdRes :=
  match op st.stack with
  | some s' => .ok f { st with stack := s' }
  | none => .raise (.codeError .stackErr f.ip) st

/-- Payload of `unarystackf`: receives the popped value and the state after
the pop; may mutate frame and state and/or return a value to push.  (Payloads
that mutate never raise and payloads that raise never mutate, as in the
source.) -/
abbrev UnPayload := Value → Frame → St → Except RawErr (Frame × St × Option Value)

/-- Payload of `binstackf`/`tristackf` (these never mutate the frame). -/
abbrev BinPayload := Value → Value → Frame → St → Except RawErr (St × Option Value)

/-- Payload of `tristackf`. -/
abbrev TriPayload := Value → Value → Value → Frame → St → Except RawErr (St × Option Value)

/-- `unarystackf(f, ntype, pushresult)`: pop `a` (via sf), type-check it,
run the payload, optionally push the result. -/
def unarystackf (f : Frame) (st : St) (payload : UnPayload)
    (ntype : Option Ty) (pushresult : Bool) : CmdRes :=
  match popSf f st with
  | .error (e, st1) => .raise e st1
  | .ok (a, st1) =>
    match tyCheck ntype a with
    | some (e, g) => .raise (.codeError (.wrongType e g) f.ip) st1
    | none =>
      match payload a f st1 with
      | .error e => .raise e st1
      | .ok (f2, st2, res) =>
        if pushresult then
          match res with
          | some v => .ok f2 { st2 with stack := Stack.push st2.stack v }
          | none => .ok f2 st2
        else .ok f2 st2

/-- `binstackf(f, atype, btype, pushresult)`: pop `b` then `a` (via sf),
type-check `b` then `a`, run the payload, optionally push. -/
def binstackf (f : Frame) (st : St) (payload : BinPayload)
    (atype btype : Option Ty) (pushresult : Bool) : CmdRes :=
  match popSf f st with
  | .error (e, st1) => .raise e st1
  | .ok (b, st1) =>
    match popSf f st1 with
    | .error (e, st2) => .raise e st2
    | .ok (a, st2) =>
      match tyCheck btype b with
      | some (e, g) => .raise (.codeError (.wrongType e g) f.ip) st2
      | none =>
        match tyCheck atype a with
        | some (e, g) => .raise (.codeError (.wrongType e g) f.ip) st2
        | none =>
          match payload a b f st2 with
          | .error e => .raise e st2
          | .ok (st3, res) =>
            if pushresult then
              match res with
              | some v => .ok f { st3 with stack := Stack.push st3.stack v }
              | none => .ok f st3
            else .ok f st3

/-- `tristackf(f, atype, btype, ctype, pushresult)`: pop `c`, `b`, `a`,
type-check `c`, `b`, `a`, run the payload, optionally push. -/
def tristackf (f : Frame) (st : St) (payload : TriPayload)
    (atype btype ctype : Option Ty) (pushresult : Bool) : CmdRes :=
  match popSf f st with
  | .error (e, st1) => .raise e st1
  | .ok (c, st1) =>
    match popSf f st1 with
    | .error (e, st2) => .raise e st2
    | .ok (b, st2) =>
      match popSf f st2 with
      | .error (e, st3) => .raise e st3
      | .ok (a, st3) =>
        match tyCheck ctype c with
        | some (e, g) => .raise (.codeError (.wrongType e g) f.ip) st3
        | none =>
          match tyCheck btype b with
          | some (e, g) => .raise (.codeError (.wrongType e g) f.ip) st3
          | none =>
            match tyCheck atype a with
            | some (e, g) => .raise (.codeError (.wrongType e g) f.ip) st3
            | none =>
              match payload a b c f st3 with
              | .error e => .raise e st3
              | .ok (st4, res) =>
                if pushresult then
                  match res with
                  | some v => .ok f { st4 with stack := Stack.push st4.stack v }
                  | none => .ok f st4
                else .ok f st4

/-- Lift a pure value function into a `UnPayload`. -/
def pureUn (g : Value → Except RawErr Value) : UnPayload :=
  fun a f st => (g a).map fun v => (f, st, some v)

/-- Lift a pure binary value function into a `BinPayload`. -/
def pureBin (g : Value → Value → Except RawErr Value) : BinPayload :=
  fun a b _ st => (g a b).map fun v => (st, some v)

/-! ## Value operations (Python semantics) -/

/-- Python `+` on values: number addition or string concatenation. -/
def pyAdd : Value → Value → Except RawErr Value
  | .num a, .num b => .ok (.num (qAdd a b))
  | .str a, .str b => .ok (.str (a ++ b))
  | _, _ => .error (.pyTypeError "unsupported operand types for +")

/-- Python `-` on values. -/
def pySubV : Value → Value → Except RawErr Value
  | .num a, .num b => .ok (.num (qSub a b))
  | _, _ => .error (.pyTypeError "unsupported operand types for -")

/-- Python `*` on values (`str * float` is a TypeError). -/
def pyMulV : Value → Value → Except RawErr Value
  | .num a, .num b => .ok (.num (qMul a b))
  | _, _ => .error (.pyTypeError "unsupported operand types for *")

/-- Python `/` on values; float division by zero raises ZeroDivisionError. -/
def pyDivV : Value → Value → Except RawErr Value
  | .num a, .num b => if b = 0 then .error .zeroDiv else .ok (.num (qDiv a b))
  | _, _ => .error (.pyTypeError "unsupported operand types for /")

/-- Python `%` on floats: `a - b * floor(a / b)`; zero divisor raises
ZeroDivisionError. -/
def pyModV : Value → Value → Except RawErr Value
  | .num a, .num b =>
    if b = 0 then .error .zeroDiv
    else .ok (.num (qSub a (qMul b ((Rat.floor (qDiv a b) : ℤ) : ℚ))))
  | _, _ => .error (.pyTypeError "unsupported operand types for %")

/-- Byte-wise lexicographic comparison of strings. -/
def charsLt : List Char → List Char → Bool
  | _, [] => false
  | [], _ :: _ => true
  | a :: as, b :: bs =>
    if a.toNat < b.toNat then true
    else if b.toNat < a.toNat then false
    else charsLt as bs

/-- CPython 2 `<` on values: numeric, lexicographic, and numbers sort before
strings in mixed comparisons. -/
def pyLtB : Value → Value → Bool
  | .num a, .num b => Rat.blt a b
  | .str a, .str b => charsLt a.toList b.toList
  | .num _, .str _ => true
  | .str _, .num _ => false

/-- CPython 2 `>` on values. -/
def pyGtB (a b : Value) : Bool := pyLtB b a

/-- CPython 2 `==` on values (cross-type is `False`). -/
def pyEqB : Value → Value → Bool
  | .num a, .num b => a = b
  | .str a, .str b => a = b
  | _, _ => false

/-! ## Command handlers (instruction set 0) -/

/-- `x`: pop a number `n`, require `0 ≤ int(n) < 4`, set the active set. -/
def cActivateSet (f : Frame) (st : St) : CmdRes :=
  match popSf f st with
  | .error (e, st1) => .raise e st1
  | .ok (v, st1) =>
    match v with
    | .num q =>
      if 4 ≤ pyInt q ∨ pyInt q < 0 then
        .raise (.codeError (.noInstrSet (pyInt q)) f.ip) st1
      else .ok { f with activeset := pyInt q } st1
    | .str _ => .raise (.codeError .wrongTypeNum f.ip) st1

/-- `e`. -/
def activateSet1 (f : Frame) (st : St) : CmdRes := .ok { f with activeset := 1 } st

/-- `f`. -/
def activateSet2 (f : Frame) (st : St) : CmdRes := .ok { f with activeset := 2 } st

/-- `g`. -/
def activateSet3 (f : Frame) (st : St) : CmdRes := .ok { f with activeset := 3 } st

/-- `j`: push the active set (int, normalised to NUMT by push). -/
def cGetSet (f : Frame) (st : St) : CmdRes :=
  sfPush f st (.seq [.num ((f.activeset : ℤ) : ℚ)])

/-- `z`. -/
def cNop (f : Frame) (st : St) : CmdRes := .ok f st

/-! ## Command handlers (instruction set 1) -/

/-- `u`: `sf(stack.dup, [])`. -/
def cDuplicate (f : Frame) (st : St) : CmdRes := sfStackOp Stack.dup f st

/-- `a`. -/
def cAdd (f : Frame) (st : St) : CmdRes :=
  binstackf f st (pureBin pyAdd) (some .numT) (some .numT) true

/-- `s`. -/
def cSub (f : Frame) (st : St) : CmdRes :=
  binstackf f st (pureBin pySubV) (some .numT) (some .numT) true

/-- `m`. -/
def cMul (f : Frame) (st : St) : CmdRes :=
  binstackf f st (pureBin pyMulV) (some .numT) (some .numT) true

/-- `d`: division; ZeroDivisionError propagates raw out of the handler and is
wrapped by `step`. -/
def cDiv (f : Frame) (st : St) : CmdRes :=
  binstackf f st (pureBin pyDivV) (some .numT) (some .numT) true

/-- `t`: `v2str` of a number. -/
def cToStr (f : Frame) (st : St) : CmdRes :=
  unarystackf f st (pureUn fun v => .ok (.str (v2str v))) (some .numT) true

/-- `tonum`: `NUMT(s)` if it parses, otherwise the original string. -/
def tonum (v : Value) : Value :=
  match v with
  | .str s =>
    match pyParseFloatStr s with
    | some q => .num q
    | none => .str s
  | x => x

/-- `i`. -/
def cToNum (f : Frame) (st : St) : CmdRes :=
  unarystackf f st (pureUn fun v => .ok (tonum v)) (some .strT) true

/-- `c`: concatenation (via Python `+`, type-checked to strings). -/
def cConcatenate (f : Frame) (st : St) : CmdRes :=
  binstackf f st (pureBin pyAdd) (some .strT) (some .strT) true

/-- `o`: `world.out(v2str(s) + "\n")`. -/
def cOutput (f : Frame) (st : St) : CmdRes :=
  unarystackf f st
    (fun v f st => .ok (f, { st with out := st.out ++ v2str v ++ "\n" }, none))
    none false

/-- `q`: `world.out(v2str(s))`. -/
def cInlineOutput (f : Frame) (st : St) : CmdRes :=
  unarystackf f st
    (fun v f st => .ok (f, { st with out := st.out ++ v2str v }, none))
    none false

/-- `world.readchar()`: one character, or `-1` at EOF. -/
def readcharW (st : St) : ℚ × St :=
  match st.inp with
  | [] => (-1, st)
  | c :: rest => (((c.toNat : ℕ) : ℚ), { st with inp := rest })

/-- `n`. -/
def cReadChar (f : Frame) (st : St) : CmdRes :=
  let (q, st1) := readcharW st
  sfPush f st1 (.seq [.num q])

/-- `world.readline()`: up to and including the next newline; empty at EOF. -/
def readlineGo : List Char → List Char × List Char
  | [] => ([], [])
  | c :: rest =>
    if c = '\n' then ([c], rest)
    else
      let (line, rem) := readlineGo rest
      (c :: line, rem)

/-- `l`. -/
def cReadLine (f : Frame) (st : St) : CmdRes :=
  let (line, rem) := readlineGo st.inp
  sfPush f { st with inp := rem } (.seq [.str (String.mk line)])

/-- Python slice `s[i:j]` with clamping. -/
def pySlice (cs : List Char) (i j : ℤ) : List Char :=
  let n : ℤ := cs.length
  let i' := if i < 0 then max 0 (i + n) else min i n
  let j' := if j < 0 then max 0 (j + n) else min j n
  (cs.take j'.toNat).drop i'.toNat

/-- `h`: substring `s[int(start):int(end)]`. -/
def cSubstring (f : Frame) (st : St) : CmdRes :=
  tristackf f st
    (fun a b c _ st =>
      match a, b, c with
      | .str s, .num start, .num stop =>
        .ok (st, some (.str (String.mk (pySlice s.toList (pyInt start) (pyInt stop)))))
      | _, _, _ => .error (.pyTypeError "unreachable: tristackf type-checked"))
    (some .strT) (some .numT) (some .numT) true

/-- `y`: string length. -/
def cStrLen (f : Frame) (st : St) : CmdRes :=
  unarystackf f st
    (pureUn fun v =>
      match v with
      | .str s => .ok (.num ((s.length : ℕ) : ℚ))
      | .num _ => .error (.pyTypeError "unreachable: unarystackf type-checked"))
    (some .strT) true

/-- `v`: pop and discard. -/
def cDiscard (f : Frame) (st : St) : CmdRes :=
  match popSf f st with
  | .error (e, st1) => .raise e st1
  | .ok (_, st1) => .ok f st1

/-- A `unarystackf` payload applying a Stack index operation directly (not
via sf): an out-of-range index escapes as a raw IndexError. -/
def stackOpUn (op : List Value → ℚ → Option (List Value)) : UnPayload :=
  fun a f st =>
    match a with
    | .num n =>
      match op st.stack n with
      | some s' => .ok (f, { st with stack := s' }, none)
      | none => .error .indexErr
    | .str _ => .error (.pyTypeError "unreachable: unarystackf type-checked")

/-- `p`: `stack.copy(int(n))`. -/
def cCopy (f : Frame) (st : St) : CmdRes :=
  unarystackf f st (stackOpUn Stack.copy) (some .numT) false

/-- `k`: `stack.move(int(n))`. -/
def cMove (f : Frame) (st : St) : CmdRes :=
  unarystackf f st (stackOpUn Stack.move) (some .numT) false

/-- `r`: the source passes `NUMT(len(self.stack))` itself — not a singleton
list — as the args of `sf`, so `func(*args)` raises a raw TypeError before
any push happens. -/
def cStackSize (f : Frame) (st : St) : CmdRes :=
  sfPush f st (.scalar (.num ((st.stack.length : ℕ) : ℚ)))

/-! ## Command handlers (instruction set 2, non-recursive) -/

/-- `u`: generic `>`. -/
def cGT (f : Frame) (st : St) : CmdRes :=
  binstackf f st (pureBin fun a b => .ok (.num (if pyGtB a b then 1 else 0)))
    none none true

/-- `d`: generic `<`. -/
def cLT (f : Frame) (st : St) : CmdRes :=
  binstackf f st (pureBin fun a b => .ok (.num (if pyLtB a b then 1 else 0)))
    none none true

/-- `s`: `ip += int(n)` (the step's own `+1` is applied afterwards). -/
def cSkip (f : Frame) (st : St) : CmdRes :=
  unarystackf f st
    (fun v f st =>
      match v with
      | .num n => .ok ({ f with ip := f.ip + pyInt n }, st, none)
      | .str _ => .error (.pyTypeError "unreachable: unarystackf type-checked"))
    (some .numT) false

/-- `t`: `ip += int(n * 2)`. -/
def cSkipTwo (f : Frame) (st : St) : CmdRes :=
  unarystackf f st
    (fun v f st =>
      match v with
      | .num n => .ok ({ f with ip := f.ip + pyInt (qMul n 2) }, st, none)
      | .str _ => .error (.pyTypeError "unreachable: unarystackf type-checked"))
    (some .numT) false

/-- `p`: pop `where` then `thing`, `stack.insert(where, thing)` (never
fails: CPython `list.insert` clamps). -/
def cInsert (f : Frame) (st : St) : CmdRes :=
  binstackf f st
    (fun a b _ st =>
      match b with
      | .num w => .ok ({ st with stack := Stack.insert st.stack w a }, none)
      | .str _ => .error (.pyTypeError "unreachable: binstackf type-checked"))
    none (some .numT) false

/-- `a`: logical AND (`NUMT(a and b and 1 or 0)`). -/
def cAnd (f : Frame) (st : St) : CmdRes :=
  binstackf f st
    (pureBin fun a b => .ok (.num (if a.truthy && b.truthy then 1 else 0)))
    none none true

/-- `o`: logical OR (`NUMT((a or b) and 1 or 0)`). -/
def cOr (f : Frame) (st : St) : CmdRes :=
  binstackf f st
    (pureBin fun a b => .ok (.num (if a.truthy || b.truthy then 1 else 0)))
    none none true

/-- `n`: logical NOT (`NUMT(not a and 1 or 0)`). -/
def cNot (f : Frame) (st : St) : CmdRes :=
  unarystackf f st
    (pureUn fun a => .ok (.num (if a.truthy then 0 else 1)))
    none true

/-- `q`: generic equality. -/
def cEqual (f : Frame) (st : St) : CmdRes :=
  binstackf f st (pureBin fun a b => .ok (.num (if pyEqB a b then 1 else 0)))
    none none true

/-- `l`: `int(a) << int(b)`; a negative shift count raises ValueError. -/
def cLshift (f : Frame) (st : St) : CmdRes :=
  binstackf f st
    (pureBin fun a b =>
      match a, b with
      | .num x, .num y =>
        if pyInt y < 0 then .error .negShift
        else .ok (.num ((pyInt x * ((2 ^ (pyInt y).toNat : ℕ) : ℤ) : ℤ) : ℚ))
      | _, _ => .error (.pyTypeError "unreachable: binstackf type-checked"))
    (some .numT) (some .numT) true

/-- `r`: `int(a) >> int(b)` (arithmetic shift = floor division); a negative
shift count raises ValueError. -/
def cRshift (f : Frame) (st : St) : CmdRes :=
  binstackf f st
    (pureBin fun a b =>
      match a, b with
      | .num x, .num y =>
        if pyInt y < 0 then .error .negShift
        else .ok (.num ((Int.fdiv (pyInt x) ((2 ^ (pyInt y).toNat : ℕ) : ℤ) : ℤ) : ℚ))
      | _, _ => .error (.pyTypeError "unreachable: binstackf type-checked"))
    (some .numT) (some .numT) true

/-! ## Command handlers (instruction set 3, non-recursive) -/

/-- `q`: quit the whole program (`sys.exit(0)` unwinds everything). -/
def cQuit (_ : Frame) (st : St) : CmdRes := .quitR st

/-- `n`: is-number. -/
def cIsNumber (f : Frame) (st : St) : CmdRes :=
  unarystackf f st
    (pureUn fun v => .ok (.num (match v with | .num _ => 1 | .str _ => 0)))
    none true

/-- `s`: is-string. -/
def cIsString (f : Frame) (st : St) : CmdRes :=
  unarystackf f st
    (pureUn fun v => .ok (.num (match v with | .str _ => 1 | .num _ => 0)))
    none true

/-- `a`: bitwise AND after int conversion. -/
def cBinAnd (f : Frame) (st : St) : CmdRes :=
  binstackf f st
    (pureBin fun a b =>
      match a, b with
      | .num x, .num y => .ok (.num ((Int.land (pyInt x) (pyInt y) : ℤ) : ℚ))
      | _, _ => .error (.pyTypeError "unreachable: binstackf type-checked"))
    (some .numT) (some .numT) true

/-- `o`: bitwise OR after int conversion. -/
def cBinOr (f : Frame) (st : St) : CmdRes :=
  binstackf f st
    (pureBin fun a b =>
      match a, b with
      | .num x, .num y => .ok (.num ((Int.lor (pyInt x) (pyInt y) : ℤ) : ℚ))
      | _, _ => .error (.pyTypeError "unreachable: binstackf type-checked"))
    (some .numT) (some .numT) true

/-- `i`: truncate to integer. -/
def cInteger (f : Frame) (st : St) : CmdRes :=
  unarystackf f st
    (pureUn fun v =>
      match v with
      | .num q => .ok (.num ((pyInt q : ℤ) : ℚ))
      | .str _ => .error (.pyTypeError "unreachable: unarystackf type-checked"))
    (some .numT) true

/-- `m`: modulo. -/
def cMod (f : Frame) (st : St) : CmdRes :=
  binstackf f st (pureBin pyModV) (some .numT) (some .numT) true

/-- `t`: `chr(int(k) % 256)`. -/
def cToChar (f : Frame) (st : St) : CmdRes :=
  unarystackf f st
    (pureUn fun v =>
      match v with
      | .num k => .ok (.str (String.mk [Char.ofNat ((pyInt k).emod 256).toNat]))
      | .str _ => .error (.pyTypeError "unreachable: unarystackf type-checked"))
    (some .numT) true

/-- `c`: char-at with explicit bounds check (negative indices NOT allowed). -/
def cCharAt (f : Frame) (st : St) : CmdRes :=
  binstackf f st
    (fun a b f st =>
      match a, b with
      | .str s, .num n =>
        let idx := pyInt n
        if idx < 0 ∨ (s.length : ℤ) ≤ idx then
          .error (.codeError (.idxOutOfBounds s.length idx) f.ip)
        else .ok (st, some (.num (((s.toList.getD idx.toNat ' ').toNat : ℕ) : ℚ)))
      | _, _ => .error (.pyTypeError "unreachable: binstackf type-checked"))
    (some .strT) (some .numT) true

/-- `r`: replace-char; bounds-checked like `c`; `repl[0]` of an empty
replacement raises a raw IndexError. -/
def cReplaceChar (f : Frame) (st : St) : CmdRes :=
  tristackf f st
    (fun a b c f st =>
      match a, b, c with
      | .str s, .num n, .str repl =>
        let idx := pyInt n
        if idx < 0 ∨ (s.length : ℤ) ≤ idx then
          .error (.codeError (.idxOutOfBounds s.length idx) f.ip)
        else
          match repl.toList with
          | [] => .error .indexErr
          | r :: _ =>
            .ok (st, some (.str (String.mk
              (s.toList.take idx.toNat ++ [r] ++ s.toList.drop (idx.toNat + 1)))))
      | _, _, _ => .error (.pyTypeError "unreachable: tristackf type-checked"))
    (some .strT) (some .numT) (some .strT) true

/-- `p`: inverted copy (indexError escapes raw, not via sf). -/
def cInvertedCopy (f : Frame) (st : St) : CmdRes :=
  unarystackf f st (stackOpUn Stack.invcopy) (some .numT) false

/-- `k`: inverted move. -/
def cInvertedMove (f : Frame) (st : St) : CmdRes :=
  unarystackf f st (stackOpUn Stack.invmove) (some .numT) false

/-- `b`: `sf(stack.swap, [])`. -/
def cSwap (f : Frame) (st : St) : CmdRes := sfStackOp Stack.swap f st

/-- `d`: `sf(stack.swap2, [])`. -/
def cSwap2 (f : Frame) (st : St) : CmdRes := sfStackOp Stack.swap2 f st

/-- `h`: `sf(stack.swap3, [])`. -/
def cSwap3 (f : Frame) (st : St) : CmdRes := sfStackOp Stack.swap3 f st

/-! ## Dispatch tables -/

/-- Instruction set 0 (the priority set). -/
def set0run (c : Char) : Option (Frame → St → CmdRes) :=
  match c with
  | 'e' => some activateSet1
  | 'f' => some activateSet2
  | 'g' => some activateSet3
  | 'x' => some cActivateSet
  | 'j' => some cGetSet
  | 'z' => some cNop
  | _ => none

/-- Instruction set 1. -/
def set1run (c : Char) : Option (Frame → St → CmdRes) :=
  match c with
  | 'u' => some cDuplicate
  | 'a' => some cAdd
  | 's' => some cSub
  | 'm' => some cMul
  | 'd' => some cDiv
  | 't' => some cToStr
  | 'i' => some cToNum
  | 'c' => some cConcatenate
  | 'o' => some cOutput
  | 'q' => some cInlineOutput
  | 'n' => some cReadChar
  | 'l' => some cReadLine
  | 'h' => some cSubstring
  | 'y' => some cStrLen
  | 'v' => some cDiscard
  | 'p' => some cCopy
  | 'k' => some cMove
  | 'r' => some cStackSize
  | _ => none

/-- Instruction set 2 without the recursive commands `c` (exec) and `w`
(while), which live in the mutual block below. -/
def set2run (c : Char) : Option (Frame → St → CmdRes) :=
  match c with
  | 'u' => some cGT
  | 'd' => some cLT
  | 's' => some cSkip
  | 't' => some cSkipTwo
  | 'p' => some cInsert
  | 'a' => some cAnd
  | 'o' => some cOr
  | 'n' => some cNot
  | 'q' => some cEqual
  | 'l' => some cLshift
  | 'r' => some cRshift
  | _ => none

/-- Instruction set 3 without the recursive command `w` (recall-while). -/
def set3run (c : Char) : Option (Frame → St → CmdRes) :=
  match c with
  | 'q' => some cQuit
  | 'n' => some cIsNumber
  | 's' => some cIsString
  | 'a' => some cBinAnd
  | 'o' => some cBinOr
  | 'i' => some cInteger
  | 'm' => some cMod
  | 't' => some cToChar
  | 'c' => some cCharAt
  | 'r' => some cReplaceChar
  | 'p' => some cInvertedCopy
  | 'k' => some cInvertedMove
  | 'b' => some cSwap
  | 'd' => some cSwap2
  | 'h' => some cSwap3
  | _ => none

/-- `step`'s `except ZeroDivisionError` around the active-set dispatch:
a raw ZeroDivisionError is re-raised as a CodeError. -/
def wrapZero (ip : ℤ) : CmdRes → CmdRes
  | .raise .zeroDiv s => .raise (.codeError .divZero ip) s
  | r => r

/-- Result of a whole interpreter run. -/
inductive RunRes where
  | done (s : St)
  | raise (e : RawErr) (s : St)
  | quitR (s : St)
  | fuelOut (s : St)
deriving DecidableEq

mutual

/-- `World.run`: `while self.interpreter.step(): pass`.  The fuel argument
only bounds the modelled recursion; it plays no semantic role. -/
def runI : Nat → Frame → St → RunRes
  | 0, _, st => .fuelOut st
  | Nat.succ n, f, st =>
    if (f.code.length : ℤ) ≤ f.ip then .done st
    else
      match stepI n f st with
      | .ok f' st' => runI n f' st'
      | .raise e st' => .raise e st'
      | .quitR st' => .quitR st'
      | .fuelOut st' => .fuelOut st'

/-- The `self.ip += 1` at the end of a successful `step`. -/
def bumpIp : CmdRes → CmdRes
  | .ok f st => .ok { f with ip := f.ip + 1 } st
  | r => r

/-- The dispatch of `Interpreter.step` for one Item (without the trailing
`ip += 1`): constants are pushed via sf; commands dispatch through set 0
first (priority rule), then the checked active set, wrapping
ZeroDivisionError from the active-set handler. -/
def stepCore : Nat → Frame → St → CmdRes
  | 0, _, st => .fuelOut st
  | Nat.succ n, f, st =>
    match pyItemGet f.code f.ip with
    | none => .raise .indexErr st
    | some item =>
      match item with
      | .constant v => sfPush f st (.seq [v])
      | .command c =>
        match set0run c with
        | some h => h f st
        | none =>
          if f.activeset < 0 ∨ 4 ≤ f.activeset then
            .raise (.codeError (.noSuchSet f.activeset) f.ip) st
          else if f.activeset = 1 then
            match set1run c with
            | some h => wrapZero f.ip (h f st)
            | none => .raise (.codeError (.noSuchCmd 1 c) f.ip) st
          else if f.activeset = 2 then
            if c = 'c' then wrapZero f.ip (cExecF n f st)
            else if c = 'w' then wrapZero f.ip (cWhileF n f st)
            else
              match set2run c with
              | some h => wrapZero f.ip (h f st)
              | none => .raise (.codeError (.noSuchCmd 2 c) f.ip) st
          else if f.activeset = 3 then
            if c = 'w' then wrapZero f.ip (cRecallWhileF n f st)
            else
              match set3run c with
              | some h => wrapZero f.ip (h f st)
              | none => .raise (.codeError (.noSuchCmd 3 c) f.ip) st
          else .raise (.codeError (.noSuchCmd 0 c) f.ip) st

/-- `Interpreter.step` for one Item: the dispatch, then `ip += 1` on
success (the `ip >= len(code)` end check is done by `runI`). -/
def stepI : Nat → Frame → St → CmdRes
  | 0, _, st => .fuelOut st
  | Nat.succ n, f, st => bumpIp (stepCore n f st)

/-- Set 2 `c` (exec): `unarystackf(self.execstr, STRT, pushresult=False)`,
inlined because of the recursion. -/
def cExecF : Nat → Frame → St → CmdRes
  | 0, _, st => .fuelOut st
  | Nat.succ n, f, st =>
    match popSf f st with
    | .error (e, st1) => .raise e st1
    | .ok (a, st1) =>
      match a with
      | .str s => execstrF n f st1 s
      | .num _ => .raise (.codeError (.wrongType .strT .numT) f.ip) st1

/-- `Interpreter.execstr` / `World.recurse`: parse the string, run a child
interpreter sharing the stack and inheriting the parent's active set, and
wrap any failure in the parent's error context. -/
def execstrF : Nat → Frame → St → String → CmdRes
  | 0, _, st, _ => .fuelOut st
  | Nat.succ n, f, st, s =>
    match parse s.toList with
    | .error pe => .raise (.codeError (.execParseFail pe.msg) f.ip) st
    | .ok items =>
      match runI n { code := items, ip := 0, activeset := f.activeset } st with
      | .done st' => .ok f st'
      | .raise (.valueError pe) st' => .raise (.codeError (.execParseFail pe.msg) f.ip) st'
      | .raise .negShift st' =>
        .raise (.codeError (.execParseFail "negative shift count") f.ip) st'
      | .raise (.codeError k ip') st' => .raise (.codeError (.execRuntime k ip') f.ip) st'
      | .raise .zeroDiv st' => .raise (.codeError (.execFailed .zeroDivE) f.ip) st'
      | .raise (.pyTypeError m) st' => .raise (.codeError (.execFailed (.typeE m)) f.ip) st'
      | .raise .indexErr st' => .raise (.codeError (.execFailed .indexE) f.ip) st'
      | .quitR st' => .quitR st'
      | .fuelOut st' => .fuelOut st'

/-- Set 2 `w` (while-classic): loop — pop a test; if truthy, pop a String of
code and exec it, else stop. -/
def cWhileF : Nat → Frame → St → CmdRes
  | 0, _, st => .fuelOut st
  | Nat.succ n, f, st =>
    match popSf f st with
    | .error (e, st1) => .raise e st1
    | .ok (val, st1) =>
      if val.truthy then
        match popSf f st1 with
        | .error (e, st2) => .raise e st2
        | .ok (code, st2) =>
          match code with
          | .str s =>
            match execstrF n f st2 s with
            | .ok f' st3 => cWhileF n f' st3
            | other => other
          | .num _ => .raise (.codeError (.wrongType .strT .numT) f.ip) st2
      else .ok f st1

/-- Set 3 `w` (recall-while): pop the code once, then repeatedly pop a test
and exec the code while the test is truthy. -/
def cRecallWhileF : Nat → Frame → St → CmdRes
  | 0, _, st => .fuelOut st
  | Nat.succ n, f, st =>
    match popSf f st with
    | .error (e, st1) => .raise e st1
    | .ok (code, st1) =>
      match code with
      | .str s => recallLoopF n f st1 s
      | .num _ => .raise (.codeError (.wrongType .strT .numT) f.ip) st1

/-- The `while self.sf(self.stack.pop,[]): self.execstr(code)` loop of
recall-while. -/
def recallLoopF : Nat → Frame → St → String → CmdRes
  | 0, _, st, _ => .fuelOut st
  | Nat.succ n, f, st, s =>
    match popSf f st with
    | .error (e, st1) => .raise e st1
    | .ok (val, st1) =>
      if val.truthy then
        match execstrF n f st1 s with
        | .ok f' st2 => recallLoopF n f' st2 s
        | other => other
      else .ok f st1

end

/-- The outcome of `main` on a source text: the categories match the
top-level `except` clauses of the source. -/
inductive TopRes where
  | done (out : String)                     -- clean completion
  | parseErr (pe : ParseError)              -- "Parse error" from parsing the file
  | runtimeErr (k : EKind) (ip : ℤ) (out : String)  -- "Run-time error"
  | valueErr (msg : String) (out : String)  -- "Parse error" (stray ValueError)
  | otherExc (out : String)                 -- "An exception occured"
  | quitDone (out : String)                 -- sys.exit(0)
  | fuelOut (out : String)
deriving DecidableEq

/-- Parse and run a source text on a fresh World: empty stack, `ip = 0`,
`active_set = 0`, stdin `inp`. -/
def runSource (fuel : Nat) (src : String) (inp : List Char) : TopRes :=
  match parse src.toList with
  | .error pe => .parseErr pe
  | .ok items =>
    match runI fuel { code := items, ip := 0, activeset := 0 }
        { stack := [], out := "", inp := inp } with
    | .done st => .done st.out
    | .quitR st => .quitDone st.out
    | .fuelOut st => .fuelOut st.out
    | .raise (.codeError k ip) st => .runtimeErr k ip st.out
    | .raise (.valueError pe) st => .valueErr pe.msg st.out
    | .raise .negShift st => .valueErr "negative shift count" st.out
    | .raise _ st => .otherExc st.out

/-! ## Invariant vocabulary for the active-set claim -/

/-- The active set is one of the four existing instruction sets. -/
def SetOK (f : Frame) : Prop := 0 ≤ f.activeset ∧ f.activeset < 4

/-- Whether a CodeError payload is — or wraps, through exec contexts — the
dispatcher's "no such set" error. -/
def EKind.noSetB : EKind → Bool
  | .noSuchSet _ => true
  | .execRuntime k _ => k.noSetB
  | _ => false

/-- Whether an escaping exception contains a "no such set" error. -/
def RawErr.noSetB : RawErr → Bool
  | .codeError k _ => k.noSetB
  | _ => false

/-- A command result respects the invariant: a produced frame has a valid
active set, and a raised error contains no "no such set". -/
def CmdRes.okC : CmdRes → Prop
  | .ok f _ => SetOK f
  | .raise e _ => e.noSetB = false
  | .quitR _ => True
  | .fuelOut _ => True

/-- A run result raises no error containing "no such set". -/
def RunRes.okR : RunRes → Prop
  | .raise e _ => e.noSetB = false
  | _ => True

/-- The invariant condition on a `unarystackf` payload: from a valid frame
it produces a valid frame, and its errors contain no "no such set". -/
def UnPayloadOK (payload : UnPayload) : Prop :=
  (∀ a f st f2 st2 res, SetOK f → payload a f st = .ok (f2, st2, res) → SetOK f2) ∧
  (∀ a f st e, payload a f st = .error e → e.noSetB = false)

/-- The invariant condition on a `binstackf`/`tristackf` payload (these
never produce frames): its errors contain no "no such set". -/
def BinPayloadOK (payload : BinPayload) : Prop :=
  ∀ a b f st e, payload a b f st = .error e → e.noSetB = false

/-- Same for `tristackf` payloads. -/
def TriPayloadOK (payload : TriPayload) : Prop :=
  ∀ a b c f st e, payload a b c f st = .error e → e.noSetB = false


/-! ## Theorems

The rational-arithmetic wrappers agree with the field operations of `ℚ`. -/

theorem qAdd_eq (a b : ℚ) : qAdd a b = a + b := by
  unfold qAdd
  rw [Rat.divInt_eq_div]
  have ha : (a.den : ℚ) ≠ 0 := by positivity
  have hb : (b.den : ℚ) ≠ 0 := by positivity
  conv_rhs => rw [← Rat.num_div_den a, ← Rat.num_div_den b]
  push_cast
  field_simp

theorem qSub_eq (a b : ℚ) : qSub a b = a - b := by
  unfold qSub
  rw [Rat.divInt_eq_div]
  have ha : (a.den : ℚ) ≠ 0 := by positivity
  have hb : (b.den : ℚ) ≠ 0 := by positivity
  conv_rhs => rw [← Rat.num_div_den a, ← Rat.num_div_den b]
  push_cast
  field_simp
  ring

theorem qMul_eq (a b : ℚ) : qMul a b = a * b := by
  unfold qMul
  rw [Rat.divInt_eq_div]
  have ha : (a.den : ℚ) ≠ 0 := by positivity
  have hb : (b.den : ℚ) ≠ 0 := by positivity
  conv_rhs => rw [← Rat.num_div_den a, ← Rat.num_div_den b]
  push_cast
  field_simp

theorem qDiv_eq (a b : ℚ) (hb : b ≠ 0) : qDiv a b = a / b := by
  unfold qDiv
  rw [Rat.divInt_eq_div]
  have ha : (a.den : ℚ) ≠ 0 := by positivity
  have hbn : (b.num : ℚ) ≠ 0 := by simpa using Rat.num_ne_zero.mpr hb
  have hbd : (b.den : ℚ) ≠ 0 := by positivity
  conv_rhs => rw [← Rat.num_div_den a, ← Rat.num_div_den b]
  push_cast
  field_simp

theorem qNeg_eq (a : ℚ) : qNeg a = -a := rfl

/-- On non-negative rationals, truncation toward zero is the floor. -/
theorem pyInt_eq_floor (q : ℚ) (h : 0 ≤ q) : pyInt q = ⌊q⌋ := by
  rw [pyInt, Rat.floor_def, Int.tdiv_eq_ediv (Rat.num_nonneg.mpr h) (by positivity)]



/-! ### Supporting lemmas -/

/-- `pyInt` of an integer is that integer. -/
theorem pyInt_intCast (k : ℤ) : pyInt ((k : ℤ) : ℚ) = k := by
  rw [pyInt, Rat.intCast_num, Rat.intCast_den]
  exact Int.tdiv_one k

/-- Popping a stack written as `rest ++ [v]` yields `v` and `rest`. -/
theorem pop_concat (rest : List Value) (v : Value) :
    Stack.pop (rest ++ [v]) = some (v, rest) := by
  simp [Stack.pop]

/-- `popSf` on a non-empty stack. -/
theorem popSf_concat (f : Frame) (st : St) (rest : List Value) (v : Value)
    (h : st.stack = rest ++ [v]) :
    popSf f st = .ok (v, { st with stack := rest }) := by
  simp [popSf, h, pop_concat]

/-! ### C1: the `e[code: ]q f[1 1 a]c e o` scenario -/

set_option maxHeartbeats 1600000 in
/-- C1, counterexample: the program `e[code: ]q f[1 1 a]c e o`, run on a
fresh Host with empty stack and `active_set = 0`, does NOT write
`code: 2\n`: the child interpreter spawned by the set-2 `c` inherits
`active_set = 2`, in which `a` is logical AND, so `1 1 a` leaves `1`, not
`2`, on the shared stack. -/
theorem c1_counterexample :
    runSource 200 "e[code: ]q f[1 1 a]c e o" [] ≠ TopRes.done "code: 2\n" := by
  decide

set_option maxHeartbeats 1600000 in
/-- C1, amended: the program writes exactly `code: 1\n`.  Set 1 prints
`code: ` inline; the set-2 `c` (exec) runs the pushed string `1 1 a` in a
child interpreter that inherits the parent's `active_set` (= 2) at spawn
time, where `a` is logical AND, leaving `1` on the shared stack; the final
`e o` prints it. -/
theorem c1_exec_scenario_output :
    runSource 200 "e[code: ]q f[1 1 a]c e o" [] = TopRes.done "code: 1\n" := by
  decide

/-! ### C5: `r` (stack-size) -/

/-- C5: the set-1 command `r` (`cStackSize`) never pushes: the source passes
`NUMT(len(self.stack))` itself — not a one-element list — as the `args` of
`sf`, so `func(*args)` raises `TypeError: argument after * must be a
sequence`, which nothing catches (sf only catches IndexError).  Shown both
at the command level and end-to-end: `e r` on a fresh Host ends in the
top-level "An exception occured" handler with no output. -/
theorem c5_stacksize_raises_typeerror :
    cStackSize ⟨[], 0, 1⟩ ⟨[], "", []⟩ =
      .raise (.pyTypeError "argument after * must be a sequence") ⟨[], "", []⟩ ∧
    runSource 100 "er" [] = TopRes.otherExc "" := by
  decide


/-! ### C7: position of the "unterminated [" parse error -/

/-- Any "unterminated [" error from the parse loop is reported at the last
index of the source (the source raises at `i1 - 1` where `i1` is the first
out-of-bounds index, which is always `len`). -/
theorem parseLoop_unterminated_pos (cs : List Char) :
    ∀ rem i mode acc pe, i + rem.length = cs.length →
    (∀ lvl cur, mode = PMode.inBracket lvl cur → 1 ≤ i) →
    parseLoop cs rem i mode acc = .error pe →
    pe.label = "unterminated [" → pe.pos + 1 = cs.length := by
  intro rem
  induction rem with
  | nil =>
    intro i mode acc pe hlen hmode h hlabel
    cases mode with
    | normal => exact absurd h (by simp [parseLoop])
    | inBracket lvl cur =>
      have h1 := hmode lvl cur rfl
      rw [parseLoop] at h
      simp only [Except.error.injEq] at h
      subst h
      show i - 1 + 1 = cs.length
      simp only [List.length_nil] at hlen
      omega
  | cons c rest ih =>
    intro i mode acc pe hlen hmode h hlabel
    cases mode with
    | normal =>
      rw [parseLoop] at h
      split at h
      · exact ih (i + 1) _ _ pe (by simp only [List.length_cons] at hlen; omega) (by omega) h hlabel
      · split at h
        · exact ih (i + 1) _ _ pe (by simp only [List.length_cons] at hlen; omega) (by omega) h hlabel
        · split at h
          · exact ih (i + 1) _ _ pe (by simp only [List.length_cons] at hlen; omega) (by omega) h hlabel
          · split at h
            · simp only [Except.error.injEq] at h
              subst h
              simp at hlabel
            · exact ih (i + 1) _ _ pe (by simp only [List.length_cons] at hlen; omega) (by omega) h hlabel
    | inBracket lvl cur =>
      rw [parseLoop] at h
      split at h
      · exact ih (i + 1) _ _ pe (by simp only [List.length_cons] at hlen; omega) (by omega) h hlabel
      · exact ih (i + 1) _ _ pe (by simp only [List.length_cons] at hlen; omega) (by omega) h hlabel

/-- C7, counterexample: parsing `[ab` fails with "unterminated [" reported
at position 2 (the last index of the source), not at position 0 where the
opening `[` sits. -/
theorem c7_counterexample :
    parse "[ab".toList =
      .error ⟨"unterminated [", 2, errstr "[ab".toList "unterminated [" 2⟩ ∧
    (2 : Nat) ≠ 0 :=
  ⟨rfl, by decide⟩

/-- C7, amended: when a bracketed string constant is still open at the end
of the source, parsing fails with an "unterminated [" parse error whose
reported position is the LAST index of the source (`len - 1`), which equals
the position of the opening `[` only when the `[` is the final character. -/
theorem c7_unterminated_pos (cs : List Char) (pe : ParseError)
    (h : parse cs = .error pe) (hlabel : pe.label = "unterminated [") :
    pe.pos + 1 = cs.length :=
  parseLoop_unterminated_pos cs cs 0 .normal [] pe (by simp) (by simp) h hlabel

/-- C7, witness: the amended theorem applied to the source `[ab`. -/
theorem c7_witness :
    (⟨"unterminated [", 2, errstr "[ab".toList "unterminated [" 2⟩ : ParseError).pos + 1 =
      "[ab".toList.length :=
  c7_unterminated_pos "[ab".toList
    ⟨"unterminated [", 2, errstr "[ab".toList "unterminated [" 2⟩ rfl rfl


/-! ### C4: `v2str` on Numbers truncates -/

/-- C4, counterexample: `v2str(2.5)` is `"2"`, not `"2.5"`: `str(int(n))`
never fails on a (finite) float, so the "default float representation"
branch is dead and the fractional part is truncated away. -/
theorem c4_counterexample :
    v2str (Value.num (qDiv 5 2)) = "2" ∧ ("2" : String) ≠ "2.5" := by
  decide

/-- C4, amended: for every Number `v`, `v2str` returns the decimal
representation of `int(v)` — truncation toward zero — whether or not `v` is
integral-valued (`str(int(n))` succeeds for every finite float, so the
float-formatting branch is unreachable for Numbers); on integral values this
is the claimed integer representation without a decimal point.  `o`
(output-line), `q` (output-inline) and `t` (to-string) all use it. -/
theorem c4_v2str_truncates :
    (∀ q : ℚ, v2str (.num q) = toString (pyInt q)) ∧
    (∀ k : ℤ, v2str (.num ((k : ℤ) : ℚ)) = toString k) ∧
    (∀ f st rest v, st.stack = rest ++ [v] →
      cOutput f st = .ok f { st with stack := rest, out := st.out ++ v2str v ++ "\n" }) ∧
    (∀ f st rest v, st.stack = rest ++ [v] →
      cInlineOutput f st = .ok f { st with stack := rest, out := st.out ++ v2str v }) ∧
    (∀ f st rest q, st.stack = rest ++ [.num q] →
      cToStr f st = .ok f { st with stack := rest ++ [.str (toString (pyInt q))] }) := by
  refine ⟨fun q => rfl, fun k => by rw [show v2str (.num ((k : ℤ) : ℚ)) = toString (pyInt ((k : ℤ) : ℚ)) from rfl, pyInt_intCast], ?_, ?_, ?_⟩
  · intro f st rest v h
    unfold cOutput unarystackf
    rw [popSf_concat f st rest v h]
    simp [tyCheck]
  · intro f st rest v h
    unfold cInlineOutput unarystackf
    rw [popSf_concat f st rest v h]
    simp [tyCheck]
  · intro f st rest q h
    unfold cToStr unarystackf
    rw [popSf_concat f st rest (.num q) h]
    simp [tyCheck, Value.tyOf, pureUn, Stack.push, v2str, Except.map]

/-- C4, witness: the output-line conjunct at a concrete state. -/
theorem c4_witness :
    cOutput ⟨[], 0, 1⟩ ⟨[Value.num (qDiv 5 2)], "", []⟩ =
      .ok ⟨[], 0, 1⟩ ⟨[], "" ++ v2str (Value.num (qDiv 5 2)) ++ "\n", []⟩ :=
  c4_v2str_truncates.2.2.1 ⟨[], 0, 1⟩ ⟨[Value.num (qDiv 5 2)], "", []⟩ []
    (Value.num (qDiv 5 2)) rfl

/-! ### C3: truthiness of the logical commands -/

/-- C3, counterexample: the empty String is NOT truthy: set-2 `n` (logical
NOT) on `""` pushes `1` — under the claim it would push `0`. -/
theorem c3_counterexample :
    cNot ⟨[], 0, 2⟩ ⟨[Value.str ""], "", []⟩ =
      .ok ⟨[], 0, 2⟩ ⟨[Value.num 1], "", []⟩ ∧
    Value.num 1 ≠ Value.num 0 := by
  decide

/-- C3, amended: truthiness is Python's — `Number 0.0` AND the empty String
are the falsy values; non-zero Numbers and non-empty Strings are truthy.
`a`/`o`/`n` always push `Number 0` or `Number 1` computed from that
truthiness, and the `w` loop test breaks on any falsy popped value. -/
theorem c3_truthiness :
    ((Value.num 0).truthy = false) ∧
    ((Value.str "").truthy = false) ∧
    (∀ q : ℚ, q ≠ 0 → (Value.num q).truthy = true) ∧
    (∀ s : String, s ≠ "" → (Value.str s).truthy = true) ∧
    (∀ f st rest a b, st.stack = rest ++ [a, b] →
      cAnd f st = .ok f { st with
        stack := rest ++ [.num (if a.truthy && b.truthy then 1 else 0)] }) ∧
    (∀ f st rest a b, st.stack = rest ++ [a, b] →
      cOr f st = .ok f { st with
        stack := rest ++ [.num (if a.truthy || b.truthy then 1 else 0)] }) ∧
    (∀ f st rest a, st.stack = rest ++ [a] →
      cNot f st = .ok f { st with
        stack := rest ++ [.num (if a.truthy then 0 else 1)] }) ∧
    (∀ n f st rest v, st.stack = rest ++ [v] → v.truthy = false →
      cWhileF (n + 1) f st = .ok f { st with stack := rest }) := by
  refine ⟨rfl, rfl, ?_, ?_, ?_, ?_, ?_, ?_⟩
  · intro q hq
    simp [Value.truthy, hq]
  · intro s hs
    simp [Value.truthy, hs]
  · intro f st rest a b h
    have h2 : st.stack = (rest ++ [a]) ++ [b] := by simp [h]
    unfold cAnd binstackf
    simp [popSf_concat f st (rest ++ [a]) b h2,
      popSf_concat f { st with stack := rest ++ [a] } rest a rfl,
      tyCheck, pureBin, Stack.push, Except.map]
  · intro f st rest a b h
    have h2 : st.stack = (rest ++ [a]) ++ [b] := by simp [h]
    unfold cOr binstackf
    simp [popSf_concat f st (rest ++ [a]) b h2,
      popSf_concat f { st with stack := rest ++ [a] } rest a rfl,
      tyCheck, pureBin, Stack.push, Except.map]
  · intro f st rest a h
    unfold cNot unarystackf
    rw [popSf_concat f st rest a h]
    simp [tyCheck, pureUn, Stack.push, Except.map]
  · intro n f st rest v h hv
    unfold cWhileF
    rw [popSf_concat f st rest v h]
    simp [hv]

/-- C3, witness: logical AND on `0` and the empty String pushes `0`. -/
theorem c3_witness :
    cAnd ⟨[], 0, 2⟩ ⟨[Value.num 0, Value.str ""], "", []⟩ =
      .ok ⟨[], 0, 2⟩ ⟨[Value.num (if (Value.num 0).truthy && (Value.str "").truthy then 1 else 0)], "", []⟩ :=
  c3_truthiness.2.2.2.2.1 ⟨[], 0, 2⟩ ⟨[Value.num 0, Value.str ""], "", []⟩ []
    (Value.num 0) (Value.str "") rfl

/-! ### C6: set-2 `p` (insert) never fails -/

/-- C6, counterexample: inserting at index 0 into a stack that becomes empty
after the two pops SUCCEEDS (CPython `list.insert` clamps), it does not fail
with a stack error: `p` on stack `[5, 0]` (thing 5, where 0) yields `[5]`. -/
theorem c6_counterexample :
    cInsert ⟨[], 0, 2⟩ ⟨[Value.num 5, Value.num 0], "", []⟩ =
      .ok ⟨[], 0, 2⟩ ⟨[Value.num 5], "", []⟩ := by
  decide

/-- The CPython insert index is always within `[0, len]`. -/
theorem pyInsertIdx_le (len : Nat) (i : ℤ) : pyInsertIdx len i ≤ len := by
  unfold pyInsertIdx
  dsimp only
  split <;> first | omega | split <;> omega

/-- C6, amended: `p` (insert) never raises, whatever the index: the popped
value is placed at the CPython-clamped position of `-int(where) - 1` in the
remaining stack, and the stack grows by exactly one element. -/
theorem c6_insert_never_fails
    (f : Frame) (st : St) (rest : List Value) (thing : Value) (w : ℚ)
    (h : st.stack = rest ++ [thing, .num w]) :
    cInsert f st = .ok f { st with stack := Stack.insert rest w thing } ∧
    (Stack.insert rest w thing).length = rest.length + 1 := by
  constructor
  · have h2 : st.stack = (rest ++ [thing]) ++ [.num w] := by simp [h]
    unfold cInsert binstackf
    simp [popSf_concat f st (rest ++ [thing]) (.num w) h2,
      popSf_concat f { st with stack := rest ++ [thing] } rest thing rfl,
      tyCheck, Value.tyOf]
  · exact List.length_insertIdx _ _ (pyInsertIdx_le rest.length _)

/-- C6, witness: insert into the empty remainder at index 0. -/
theorem c6_witness :
    cInsert ⟨[], 0, 2⟩ ⟨[Value.num 7, Value.num 0], "", []⟩ =
      .ok ⟨[], 0, 2⟩ ⟨Stack.insert [] 0 (Value.num 7), "", []⟩ :=
  (c6_insert_never_fails ⟨[], 0, 2⟩ ⟨[Value.num 7, Value.num 0], "", []⟩ []
    (Value.num 7) 0 rfl).1


/-! ### Index-resolution lemmas -/

/-- `pyRes` on a non-negative in-range index. -/
theorem pyRes_pos (len : Nat) (i : ℤ) (h0 : 0 ≤ i) (h1 : i < (len : ℤ)) :
    pyRes len i = some i.toNat := by
  unfold pyRes
  dsimp only
  have hni : ¬i < 0 := by omega
  rw [if_neg hni, if_pos ⟨h0, h1⟩]

/-- `pyRes` on a negative index that wraps into range. -/
theorem pyRes_neg (len : Nat) (i : ℤ) (h0 : i < 0) (h1 : -(len : ℤ) ≤ i) :
    pyRes len i = some (i + len).toNat := by
  unfold pyRes
  dsimp only
  have hc : 0 ≤ i + (len : ℤ) ∧ i + (len : ℤ) < (len : ℤ) := ⟨by omega, by omega⟩
  rw [if_pos h0, if_pos hc]

/-- `pyRes` out of range on both sides. -/
theorem pyRes_oob (len : Nat) (i : ℤ) (h : i < -(len : ℤ) ∨ (len : ℤ) ≤ i) :
    pyRes len i = none := by
  unfold pyRes
  dsimp only
  by_cases hi : i < 0
  · rw [if_pos hi, if_neg (by omega)]
  · rw [if_neg hi, if_neg (by omega)]

/-- `get?` is defined exactly on indices below the length. -/
theorem get?_isSome_iff (l : List Value) (j : Nat) :
    (l.get? j).isSome = true ↔ j < l.length := by
  rw [Option.isSome_iff_ne_none, ne_eq, List.get?_eq_none]
  omega

/-- Erasing inside the left part of an append. -/
theorem eraseIdx_append_left {α : Type} (l l' : List α) (k : Nat)
    (h : k < l.length) : (l ++ l').eraseIdx k = l.eraseIdx k ++ l' := by
  induction l generalizing k with
  | nil => simp at h
  | cons a as ih =>
    cases k with
    | zero => simp [List.eraseIdx]
    | succ k =>
      rw [List.cons_append, List.eraseIdx_cons_succ, List.eraseIdx_cons_succ,
        ih k (by simpa using h), List.cons_append]

/-! ### C8: invmove relocates the bottom-indexed element to the top -/

/-- The core of C8 at the Stack level. -/
theorem invmove_eq (l : List Value) (n : ℚ) (h0 : 0 ≤ ⌊n⌋)
    (h1 : ⌊n⌋.toNat < l.length) :
    Stack.invmove l n =
      some (l.eraseIdx ⌊n⌋.toNat ++ [l.get ⟨⌊n⌋.toNat, h1⟩]) := by
  have hn : (0 : ℚ) ≤ n := by exact_mod_cast Int.le_floor.mp h0
  have hpy : pyInt n = ⌊n⌋ := pyInt_eq_floor n hn
  have hk : ⌊n⌋ = (⌊n⌋.toNat : ℤ) := (Int.toNat_of_nonneg h0).symm
  have hget : pyGet l ⌊n⌋ = some (l.get ⟨⌊n⌋.toNat, h1⟩) := by
    rw [pyGet, pyRes_pos _ _ h0 (by omega)]
    simp [List.get?_eq_get h1]
  have hdel : pyDel (l ++ [l.get ⟨⌊n⌋.toNat, h1⟩]) ⌊n⌋ =
      some (l.eraseIdx ⌊n⌋.toNat ++ [l.get ⟨⌊n⌋.toNat, h1⟩]) := by
    rw [pyDel, pyRes_pos _ _ h0 (by simp; omega)]
    simp [eraseIdx_append_left _ _ _ h1]
  unfold Stack.invmove
  rw [hpy]
  simp only [hget, Option.some_bind]
  simpa using hdel

/-- C8: for `0 ≤ ⌊n⌋ < len(s)`, `invmove` (set-3 `k`) appends a copy of the
element at bottom index `⌊n⌋` and then deletes the element at that original
absolute index (the append at the far end leaves index `⌊n⌋` pointing at the
original): the net effect is `s.eraseIdx ⌊n⌋ ++ [s[⌊n⌋]]` — length
unchanged, the element formerly at bottom index `⌊n⌋` now on top, all other
elements in relative order.  The last conjunct shows the same at the
command level for set-3 `k` (`cInvertedMove`). -/
theorem c8_invmove_relocates :
    (∀ (l : List Value) (n : ℚ) (h0 : 0 ≤ ⌊n⌋) (h1 : ⌊n⌋.toNat < l.length),
      Stack.invmove l n =
        some (l.eraseIdx ⌊n⌋.toNat ++ [l.get ⟨⌊n⌋.toNat, h1⟩])) ∧
    (∀ (l : List Value) (n : ℚ) (h0 : 0 ≤ ⌊n⌋) (h1 : ⌊n⌋.toNat < l.length),
      (l.eraseIdx ⌊n⌋.toNat ++ [l.get ⟨⌊n⌋.toNat, h1⟩]).length = l.length) ∧
    (∀ (f : Frame) (st : St) (rest : List Value) (n : ℚ)
      (h0 : 0 ≤ ⌊n⌋) (h1 : ⌊n⌋.toNat < rest.length),
      st.stack = rest ++ [.num n] →
      cInvertedMove f st = .ok f { st with
        stack := rest.eraseIdx ⌊n⌋.toNat ++ [rest.get ⟨⌊n⌋.toNat, h1⟩] }) := by
  refine ⟨invmove_eq, ?_, ?_⟩
  · intro l n h0 h1
    simp [List.length_append, List.length_eraseIdx_of_lt h1]
    omega
  · intro f st rest n h0 h1 h
    unfold cInvertedMove unarystackf
    rw [popSf_concat f st rest (.num n) h]
    simp only [tyCheck, Value.tyOf, stackOpUn]
    rw [invmove_eq rest n h0 h1]
    simp

/-- C8, witness: `invmove 1` on a three-element stack lifts the middle
element to the top. -/
theorem c8_witness :
    Stack.invmove [Value.num 10, Value.num 20, Value.num 30] 1 =
      some ([Value.num 10, Value.num 20, Value.num 30].eraseIdx ⌊(1 : ℚ)⌋.toNat ++
        [[Value.num 10, Value.num 20, Value.num 30].get ⟨⌊(1 : ℚ)⌋.toNat, by decide⟩]) :=
  invmove_eq [Value.num 10, Value.num 20, Value.num 30] 1 (by decide) (by decide)


/-! ### C2: negative stack indices wrap (CPython semantics) -/

/-- `pyGet` at a non-negative in-range index. -/
theorem pyGet_pos (l : List Value) (i : ℤ) (h0 : 0 ≤ i)
    (h1 : i.toNat < l.length) :
    pyGet l i = some (l.get ⟨i.toNat, h1⟩) := by
  rw [pyGet, pyRes_pos _ _ h0 (by omega)]
  simp [List.get?_eq_get h1]

/-- `pyGet` at a negative index wraps to the end. -/
theorem pyGet_neg (l : List Value) (i : ℤ) (h0 : i < 0)
    (h1 : -(l.length : ℤ) ≤ i) :
    pyGet l i = some (l.get ⟨(i + l.length).toNat, by omega⟩) := by
  rw [pyGet, pyRes_neg _ _ h0 (by omega)]
  simp [List.get?_eq_get (show (i + (l.length : ℤ)).toNat < l.length by omega)]

/-- `pyGet` out of range. -/
theorem pyGet_oob (l : List Value) (i : ℤ)
    (h : i < -(l.length : ℤ) ∨ (l.length : ℤ) ≤ i) : pyGet l i = none := by
  rw [pyGet, pyRes_oob _ _ h]
  rfl

/-- C2, counterexample: `copy(-2)` on a three-element stack does NOT fail:
the internal index `-1 - (-2) = 1` addresses the element one above the
bottom, and its copy is appended — the negative operand wrapped around to
the other end of the stack. -/
theorem c2_counterexample :
    Stack.copy [Value.num 1, Value.num 2, Value.num 3] (-2) =
      some [Value.num 1, Value.num 2, Value.num 3, Value.num 2] := by
  decide

/-- C2, amended: each indexed stack operation truncates its Number operand
toward zero (`pyInt`; first five conjuncts), but a negative truncated index
is NOT uniformly an error: the CPython index expression wraps around, so for
each of copy/move/swapn/invcopy/invmove with `int(n) < 0` the operation
succeeds exactly when `-len(stack) ≤ int(n)` — addressing an existing
element from the other end — and only wraps that fall outside the list
raise. -/
theorem c2_negative_index_wraps :
    (∀ (l : List Value) (n : ℚ), Stack.copy l n = Stack.copy l ((pyInt n : ℤ) : ℚ)) ∧
    (∀ (l : List Value) (n : ℚ), Stack.move l n = Stack.move l ((pyInt n : ℤ) : ℚ)) ∧
    (∀ (l : List Value) (n : ℚ), Stack.swapn l n = Stack.swapn l ((pyInt n : ℤ) : ℚ)) ∧
    (∀ (l : List Value) (n : ℚ), Stack.invcopy l n = Stack.invcopy l ((pyInt n : ℤ) : ℚ)) ∧
    (∀ (l : List Value) (n : ℚ), Stack.invmove l n = Stack.invmove l ((pyInt n : ℤ) : ℚ)) ∧
    (∀ (l : List Value) (n : ℚ), pyInt n < 0 →
      ((Stack.copy l n).isSome = true ↔ -(l.length : ℤ) ≤ pyInt n)) ∧
    (∀ (l : List Value) (n : ℚ), pyInt n < 0 →
      ((Stack.move l n).isSome = true ↔ -(l.length : ℤ) ≤ pyInt n)) ∧
    (∀ (l : List Value) (n : ℚ), pyInt n < 0 →
      ((Stack.swapn l n).isSome = true ↔ -(l.length : ℤ) ≤ pyInt n)) ∧
    (∀ (l : List Value) (n : ℚ), pyInt n < 0 →
      ((Stack.invcopy l n).isSome = true ↔ -(l.length : ℤ) ≤ pyInt n)) ∧
    (∀ (l : List Value) (n : ℚ), pyInt n < 0 →
      ((Stack.invmove l n).isSome = true ↔ -(l.length : ℤ) ≤ pyInt n)) := by
  refine ⟨?_, ?_, ?_, ?_, ?_, ?_, ?_, ?_, ?_, ?_⟩
  · intro l n; unfold Stack.copy; rw [pyInt_intCast]
  · intro l n; unfold Stack.move; rw [pyInt_intCast]
  · intro l n; unfold Stack.swapn; rw [pyInt_intCast]
  · intro l n; unfold Stack.invcopy; rw [pyInt_intCast]
  · intro l n; unfold Stack.invmove; rw [pyInt_intCast]
  · -- copy
    intro l n hm
    constructor
    · intro hs
      by_contra hc
      rw [Stack.copy, pyGet_oob _ _ (by omega)] at hs
      simp at hs
    · intro hge
      rw [Stack.copy, pyGet_pos _ _ (by omega) (by omega)]
      simp
  · -- move
    intro l n hm
    constructor
    · intro hs
      by_contra hc
      rw [Stack.move, pyGet_oob _ _ (by omega)] at hs
      simp at hs
    · intro hge
      have h2 : (-1 - pyInt n).toNat < l.length := by omega
      rw [Stack.move, pyGet_pos _ _ (by omega) h2]
      simp only [Option.bind_eq_bind, Option.some_bind]
      rw [pyDel, pyRes_pos _ _ (by omega) (by simp; omega)]
      simp
  · -- swapn
    intro l n hm
    constructor
    · intro hs
      by_contra hc
      rw [Stack.swapn, pyGet_oob _ _ (by omega)] at hs
      simp at hs
    · intro hge
      have h2 : (-1 - pyInt n).toNat < l.length := by omega
      rw [Stack.swapn, pyGet_pos _ _ (by omega) h2]
      simp only [Option.bind_eq_bind, Option.some_bind]
      rw [pyGet_neg _ _ (by omega) (by omega)]
      simp only [Option.bind_eq_bind, Option.some_bind]
      rw [pySet, pyRes_pos _ _ (by omega) (by omega)]
      simp only [Option.bind_eq_bind, Option.map_some', Option.some_bind]
      rw [pySet, pyRes_neg _ _ (by omega) (by simp; omega)]
      simp
  · -- invcopy
    intro l n hm
    constructor
    · intro hs
      by_contra hc
      rw [Stack.invcopy, pyGet_oob _ _ (by omega)] at hs
      simp at hs
    · intro hge
      rw [Stack.invcopy, pyGet_neg _ _ (by omega) (by omega)]
      simp
  · -- invmove
    intro l n hm
    constructor
    · intro hs
      by_contra hc
      rw [Stack.invmove, pyGet_oob _ _ (by omega)] at hs
      simp at hs
    · intro hge
      rw [Stack.invmove, pyGet_neg _ _ (by omega) (by omega)]
      simp only [Option.bind_eq_bind, Option.some_bind]
      rw [pyDel, pyRes_neg _ _ (by omega) (by simp; omega)]
      simp

/-- C2, witness: `invcopy(-1)` on a one-element stack succeeds (wraps to the
top element) while `invcopy(-2)` would not. -/
theorem c2_witness :
    pyInt (-1 : ℚ) < 0 ∧
    ((Stack.invcopy [Value.num 9] (-1)).isSome = true ↔
      -(([Value.num 9] : List Value).length : ℤ) ≤ pyInt (-1 : ℚ)) :=
  ⟨by decide, c2_negative_index_wraps.2.2.2.2.2.2.2.2.1 [Value.num 9] (-1) (by decide)⟩


/-! ### C10: binary commands pop both operands before any check -/

/-- `binstackf` pops `b` then `a` before the `btype` check: on a `btype`
mismatch the raised type error leaves the stack with both operands gone. -/
theorem binstackf_btype_err (payload : BinPayload) (atype : Option Ty)
    (bt : Ty) (pr : Bool) (f : Frame) (st : St) (rest : List Value)
    (a b : Value) (h : st.stack = rest ++ [a, b]) (hb : b.tyOf ≠ bt) :
    binstackf f st payload atype (some bt) pr =
      .raise (.codeError (.wrongType bt b.tyOf) f.ip) { st with stack := rest } := by
  have h2 : st.stack = (rest ++ [a]) ++ [b] := by simp [h]
  unfold binstackf
  simp [popSf_concat f st (rest ++ [a]) b h2,
    popSf_concat f { st with stack := rest ++ [a] } rest a rfl, tyCheck, hb]

/-- `binstackf` with a passing `btype` check but failing `atype` check: both
operands are already gone when the type error is raised. -/
theorem binstackf_atype_err (payload : BinPayload) (at' bt : Ty) (pr : Bool)
    (f : Frame) (st : St) (rest : List Value) (a b : Value)
    (h : st.stack = rest ++ [a, b]) (hb : b.tyOf = bt) (ha : a.tyOf ≠ at') :
    binstackf f st payload (some at') (some bt) pr =
      .raise (.codeError (.wrongType at' a.tyOf) f.ip) { st with stack := rest } := by
  have h2 : st.stack = (rest ++ [a]) ++ [b] := by simp [h]
  unfold binstackf
  simp [popSf_concat f st (rest ++ [a]) b h2,
    popSf_concat f { st with stack := rest ++ [a] } rest a rfl, tyCheck, hb, ha]

/-- C10: every binary command built on `binstackf` (set-1 `a`/`s`/`m`/`d`/`c`,
set-2 comparisons and shifts, set-3 bitwise ops and `m`) removes both
operands before any type check or arithmetic runs: when such a command fails
with a type error, or `d` fails with ZeroDivisionError (wrapped by `step`
into the divide-by-zero CodeError — last conjunct), the two operands are
already popped and are not restored. -/
theorem c10_operands_popped_before_errors :
    (∀ (payload : BinPayload) (atype : Option Ty) (bt : Ty) (pr : Bool)
      (f : Frame) (st : St) (rest : List Value) (a b : Value),
      st.stack = rest ++ [a, b] → b.tyOf ≠ bt →
      binstackf f st payload atype (some bt) pr =
        .raise (.codeError (.wrongType bt b.tyOf) f.ip) { st with stack := rest }) ∧
    (∀ (payload : BinPayload) (at' bt : Ty) (pr : Bool) (f : Frame) (st : St)
      (rest : List Value) (a b : Value),
      st.stack = rest ++ [a, b] → b.tyOf = bt → a.tyOf ≠ at' →
      binstackf f st payload (some at') (some bt) pr =
        .raise (.codeError (.wrongType at' a.tyOf) f.ip) { st with stack := rest }) ∧
    (∀ (f : Frame) (st : St) (rest : List Value) (x : ℚ) (s : String),
      st.stack = rest ++ [.num x, .str s] →
      cAdd f st =
        .raise (.codeError (.wrongType .numT .strT) f.ip) { st with stack := rest }) ∧
    (∀ (f : Frame) (st : St) (rest : List Value) (x : ℚ),
      st.stack = rest ++ [.num x, .num 0] →
      cDiv f st = .raise .zeroDiv { st with stack := rest }) ∧
    (∀ (ip : ℤ) (s : St),
      wrapZero ip (CmdRes.raise .zeroDiv s) = .raise (.codeError .divZero ip) s) := by
  refine ⟨binstackf_btype_err, binstackf_atype_err, ?_, ?_, fun ip s => rfl⟩
  · intro f st rest x s h
    exact binstackf_btype_err _ _ _ _ f st rest (.num x) (.str s) h
      (fun hc => by simp [Value.tyOf] at hc)
  · intro f st rest x h
    have h2 : st.stack = (rest ++ [.num x]) ++ [.num 0] := by simp [h]
    unfold cDiv binstackf
    simp [popSf_concat f st (rest ++ [Value.num x]) (.num 0) h2,
      popSf_concat f { st with stack := rest ++ [Value.num x] } rest (.num x) rfl,
      tyCheck, Value.tyOf, pureBin, pyDivV, Except.map]

/-- C10, witness: set-1 `a` on operands `(2, "x")` raises the wrong-type
error with both operands already popped. -/
theorem c10_witness :
    cAdd ⟨[], 0, 1⟩ ⟨[Value.num 2, Value.str "x"], "", []⟩ =
      .raise (.codeError (.wrongType .numT .strT) (0 : ℤ)) ⟨[], "", []⟩ :=
  c10_operands_popped_before_errors.2.2.1 ⟨[], 0, 1⟩
    ⟨[Value.num 2, Value.str "x"], "", []⟩ [] 2 "x" rfl


/-! ### C9: the active set stays in {0,1,2,3} -/

/-- `popSf` only raises the sf-wrapped "stack error". -/
theorem popSf_err (f : Frame) (st : St) (e : RawErr) (st1 : St)
    (h : popSf f st = .error (e, st1)) : e = .codeError .stackErr f.ip := by
  unfold popSf at h
  cases hp : Stack.pop st.stack with
  | some p => rw [hp] at h; simp at h
  | none =>
    rw [hp] at h
    simp only [Except.error.injEq, Prod.mk.injEq] at h
    exact h.1.symm

theorem sfPush_okC (f : Frame) (st : St) (args : PyArgs) (hf : SetOK f) :
    (sfPush f st args).okC := by
  cases args <;> simp [sfPush, CmdRes.okC, RawErr.noSetB, hf]

theorem sfStackOp_okC (op : List Value → Option (List Value)) (f : Frame)
    (st : St) (hf : SetOK f) : (sfStackOp op f st).okC := by
  unfold sfStackOp
  cases h : op st.stack <;>
    simp [CmdRes.okC, RawErr.noSetB, EKind.noSetB, hf]

theorem unarystackf_okC (f : Frame) (st : St) (payload : UnPayload)
    (nt : Option Ty) (pr : Bool) (hp : UnPayloadOK payload) (hf : SetOK f) :
    (unarystackf f st payload nt pr).okC := by
  unfold unarystackf
  rcases hpop : popSf f st with ⟨e, st1⟩ | ⟨a, st1⟩
  · have he := popSf_err f st e st1 hpop
    subst he
    simp [hpop, CmdRes.okC, RawErr.noSetB, EKind.noSetB]
  · simp only [hpop]
    cases htc : tyCheck nt a with
    | some p =>
      rcases p with ⟨e1, g⟩
      simp [CmdRes.okC, RawErr.noSetB, EKind.noSetB]
    | none =>
      rcases hpay : payload a f st1 with e | ⟨f2, st2, res⟩
      · simp [hpay, CmdRes.okC, hp.2 a f st1 e hpay]
      · have hf2 := hp.1 a f st1 f2 st2 res hf hpay
        simp only [hpay]
        cases pr <;> cases res <;> simp [CmdRes.okC, hf2]

theorem binstackf_okC (f : Frame) (st : St) (payload : BinPayload)
    (atype btype : Option Ty) (pr : Bool) (hp : BinPayloadOK payload)
    (hf : SetOK f) : (binstackf f st payload atype btype pr).okC := by
  unfold binstackf
  rcases hpop : popSf f st with ⟨e, st1⟩ | ⟨b, st1⟩
  · have he := popSf_err f st e st1 hpop
    subst he
    simp [hpop, CmdRes.okC, RawErr.noSetB, EKind.noSetB]
  · simp only [hpop]
    rcases hpop2 : popSf f st1 with ⟨e, st2⟩ | ⟨a, st2⟩
    · have he := popSf_err f st1 e st2 hpop2
      subst he
      simp [hpop2, CmdRes.okC, RawErr.noSetB, EKind.noSetB]
    · simp only [hpop2]
      cases htb : tyCheck btype b with
      | some p =>
        rcases p with ⟨e1, g⟩
        simp [CmdRes.okC, RawErr.noSetB, EKind.noSetB]
      | none =>
        cases hta : tyCheck atype a with
        | some p =>
          rcases p with ⟨e1, g⟩
          simp [CmdRes.okC, RawErr.noSetB, EKind.noSetB]
        | none =>
          rcases hpay : payload a b f st2 with e | ⟨st3, res⟩
          · simp [hpay, CmdRes.okC, hp a b f st2 e hpay]
          · simp only [hpay]
            cases pr <;> cases res <;> simp [CmdRes.okC, hf]

theorem tristackf_okC (f : Frame) (st : St) (payload : TriPayload)
    (atype btype ctype : Option Ty) (pr : Bool) (hp : TriPayloadOK payload)
    (hf : SetOK f) : (tristackf f st payload atype btype ctype pr).okC := by
  unfold tristackf
  rcases hpop : popSf f st with ⟨e, st1⟩ | ⟨c, st1⟩
  · have he := popSf_err f st e st1 hpop
    subst he
    simp [hpop, CmdRes.okC, RawErr.noSetB, EKind.noSetB]
  · simp only [hpop]
    rcases hpop2 : popSf f st1 with ⟨e, st2⟩ | ⟨b, st2⟩
    · have he := popSf_err f st1 e st2 hpop2
      subst he
      simp [hpop2, CmdRes.okC, RawErr.noSetB, EKind.noSetB]
    · simp only [hpop2]
      rcases hpop3 : popSf f st2 with ⟨e, st3⟩ | ⟨a, st3⟩
      · have he := popSf_err f st2 e st3 hpop3
        subst he
        simp [hpop3, CmdRes.okC, RawErr.noSetB, EKind.noSetB]
      · simp only [hpop3]
        cases htc : tyCheck ctype c with
        | some p =>
          rcases p with ⟨e1, g⟩
          simp [CmdRes.okC, RawErr.noSetB, EKind.noSetB]
        | none =>
          cases htb : tyCheck btype b with
          | some p =>
            rcases p with ⟨e1, g⟩
            simp [CmdRes.okC, RawErr.noSetB, EKind.noSetB]
          | none =>
            cases hta : tyCheck atype a with
            | some p =>
              rcases p with ⟨e1, g⟩
              simp [CmdRes.okC, RawErr.noSetB, EKind.noSetB]
            | none =>
              rcases hpay : payload a b c f st3 with e | ⟨st4, res⟩
              · simp [hpay, CmdRes.okC, hp a b c f st3 e hpay]
              · simp only [hpay]
                cases pr <;> cases res <;> simp [CmdRes.okC, hf]

/-- A `pureBin` payload whose function's errors are noSet-free. -/
theorem pureBin_okC (g : Value → Value → Except RawErr Value)
    (hg : ∀ a b e, g a b = .error e → e.noSetB = false) :
    BinPayloadOK (pureBin g) := by
  intro a b f st e h
  unfold pureBin at h
  rcases hga : g a b with e' | v
  · rw [hga] at h
    simp [Except.map] at h
    exact h ▸ hg a b e' hga
  · rw [hga] at h
    simp [Except.map] at h

/-- A `pureUn` payload whose function's errors are noSet-free. -/
theorem pureUn_okC (g : Value → Except RawErr Value)
    (hg : ∀ a e, g a = .error e → e.noSetB = false) :
    UnPayloadOK (pureUn g) := by
  constructor
  · intro a f st f2 st2 res hf h
    unfold pureUn at h
    rcases hga : g a with e' | v <;> rw [hga] at h <;> simp [Except.map] at h
    exact h.1 ▸ hf
  · intro a f st e h
    unfold pureUn at h
    rcases hga : g a with e' | v <;> rw [hga] at h <;> simp [Except.map] at h
    exact h ▸ hg a e' hga


/-! #### Per-command invariant lemmas -/

theorem pyAdd_err : ∀ a b e, pyAdd a b = .error e → e.noSetB = false := by
  intro a b e h
  cases a <;> cases b <;> simp [pyAdd] at h <;> subst h <;> rfl

theorem pySubV_err : ∀ a b e, pySubV a b = .error e → e.noSetB = false := by
  intro a b e h
  cases a <;> cases b <;> simp [pySubV] at h <;> subst h <;> rfl

theorem pyMulV_err : ∀ a b e, pyMulV a b = .error e → e.noSetB = false := by
  intro a b e h
  cases a <;> cases b <;> simp [pyMulV] at h <;> subst h <;> rfl

theorem pyDivV_err : ∀ a b e, pyDivV a b = .error e → e.noSetB = false := by
  intro a b e h
  cases a <;> cases b <;> simp [pyDivV] at h
  · split at h <;> simp at h <;> subst h <;> rfl
  all_goals (subst h; rfl)

theorem pyModV_err : ∀ a b e, pyModV a b = .error e → e.noSetB = false := by
  intro a b e h
  cases a <;> cases b <;> simp [pyModV] at h
  · split at h <;> simp at h <;> subst h <;> rfl
  all_goals (subst h; rfl)

theorem activateSet1_okC (f : Frame) (st : St) : (activateSet1 f st).okC := by
  refine ⟨by norm_num, by norm_num⟩

theorem activateSet2_okC (f : Frame) (st : St) : (activateSet2 f st).okC := by
  refine ⟨by norm_num, by norm_num⟩

theorem activateSet3_okC (f : Frame) (st : St) : (activateSet3 f st).okC := by
  refine ⟨by norm_num, by norm_num⟩

theorem cActivateSet_okC (f : Frame) (st : St) (hf : SetOK f) :
    (cActivateSet f st).okC := by
  unfold cActivateSet
  rcases hpop : popSf f st with ⟨e, st1⟩ | ⟨v, st1⟩
  · have he := popSf_err f st e st1 hpop
    subst he
    simp [hpop, CmdRes.okC, RawErr.noSetB, EKind.noSetB]
  · rcases v with q | s2
    · by_cases hcond : 4 ≤ pyInt q ∨ pyInt q < 0
      · simp [hpop, hcond, CmdRes.okC, RawErr.noSetB, EKind.noSetB]
      · simp only [hpop, if_neg hcond]
        constructor
        · show (0 : ℤ) ≤ pyInt q
          omega
        · show pyInt q < 4
          omega
    · simp [hpop, CmdRes.okC, RawErr.noSetB, EKind.noSetB]

theorem cGetSet_okC (f : Frame) (st : St) (hf : SetOK f) : (cGetSet f st).okC :=
  sfPush_okC f st _ hf

theorem cNop_okC (f : Frame) (st : St) (hf : SetOK f) : (cNop f st).okC := hf

theorem cDuplicate_okC (f : Frame) (st : St) (hf : SetOK f) :
    (cDuplicate f st).okC := sfStackOp_okC _ f st hf

theorem cAdd_okC (f : Frame) (st : St) (hf : SetOK f) : (cAdd f st).okC :=
  binstackf_okC f st _ _ _ _ (pureBin_okC _ pyAdd_err) hf

theorem cSub_okC (f : Frame) (st : St) (hf : SetOK f) : (cSub f st).okC :=
  binstackf_okC f st _ _ _ _ (pureBin_okC _ pySubV_err) hf

theorem cMul_okC (f : Frame) (st : St) (hf : SetOK f) : (cMul f st).okC :=
  binstackf_okC f st _ _ _ _ (pureBin_okC _ pyMulV_err) hf

theorem cDiv_okC (f : Frame) (st : St) (hf : SetOK f) : (cDiv f st).okC :=
  binstackf_okC f st _ _ _ _ (pureBin_okC _ pyDivV_err) hf

theorem cToStr_okC (f : Frame) (st : St) (hf : SetOK f) : (cToStr f st).okC :=
  unarystackf_okC f st _ _ _ (pureUn_okC _ (by intro a e h; simp at h)) hf

theorem cToNum_okC (f : Frame) (st : St) (hf : SetOK f) : (cToNum f st).okC :=
  unarystackf_okC f st _ _ _ (pureUn_okC _ (by intro a e h; simp at h)) hf

theorem cConcatenate_okC (f : Frame) (st : St) (hf : SetOK f) :
    (cConcatenate f st).okC :=
  binstackf_okC f st _ _ _ _ (pureBin_okC _ pyAdd_err) hf

theorem cOutput_okC (f : Frame) (st : St) (hf : SetOK f) : (cOutput f st).okC := by
  apply unarystackf_okC f st _ _ _ ?_ hf
  constructor
  · intro a f' st' f2 st2 res hf' h
    simp only [Except.ok.injEq, Prod.mk.injEq] at h
    exact h.1 ▸ hf'
  · intro a f' st' e h
    simp at h

theorem cInlineOutput_okC (f : Frame) (st : St) (hf : SetOK f) :
    (cInlineOutput f st).okC := by
  apply unarystackf_okC f st _ _ _ ?_ hf
  constructor
  · intro a f' st' f2 st2 res hf' h
    simp only [Except.ok.injEq, Prod.mk.injEq] at h
    exact h.1 ▸ hf'
  · intro a f' st' e h
    simp at h

theorem cReadChar_okC (f : Frame) (st : St) (hf : SetOK f) :
    (cReadChar f st).okC := by
  unfold cReadChar
  exact sfPush_okC f _ _ hf

theorem cReadLine_okC (f : Frame) (st : St) (hf : SetOK f) :
    (cReadLine f st).okC := by
  unfold cReadLine
  exact sfPush_okC f _ _ hf

theorem cSubstring_okC (f : Frame) (st : St) (hf : SetOK f) :
    (cSubstring f st).okC := by
  apply tristackf_okC f st _ _ _ _ _ ?_ hf
  intro a b c f' st' e h
  cases a <;> cases b <;> cases c <;> simp at h <;> subst h <;> rfl

theorem cStrLen_okC (f : Frame) (st : St) (hf : SetOK f) : (cStrLen f st).okC := by
  apply unarystackf_okC f st _ _ _ (pureUn_okC _ ?_) hf
  intro a e h
  cases a <;> simp at h <;> subst h <;> rfl

theorem cDiscard_okC (f : Frame) (st : St) (hf : SetOK f) :
    (cDiscard f st).okC := by
  unfold cDiscard
  rcases hpop : popSf f st with ⟨e, st1⟩ | ⟨v, st1⟩
  · have he := popSf_err f st e st1 hpop
    subst he
    simp [hpop, CmdRes.okC, RawErr.noSetB, EKind.noSetB]
  · simp [hpop, CmdRes.okC, hf]

theorem stackOpUn_okC (op : List Value → ℚ → Option (List Value)) :
    UnPayloadOK (stackOpUn op) := by
  constructor
  · intro a f' st' f2 st2 res hf' h
    unfold stackOpUn at h
    cases a with
    | num n =>
      cases hop : op st'.stack n with
      | some s' =>
        simp [hop] at h
        exact h.1 ▸ hf'
      | none => simp [hop] at h
    | str s => simp at h
  · intro a f' st' e h
    unfold stackOpUn at h
    cases a with
    | num n =>
      cases hop : op st'.stack n with
      | some s' => simp [hop] at h
      | none =>
        simp [hop] at h
        subst h
        rfl
    | str s =>
      simp at h
      subst h
      rfl

theorem cCopy_okC (f : Frame) (st : St) (hf : SetOK f) : (cCopy f st).okC :=
  unarystackf_okC f st _ _ _ (stackOpUn_okC _) hf

theorem cMove_okC (f : Frame) (st : St) (hf : SetOK f) : (cMove f st).okC :=
  unarystackf_okC f st _ _ _ (stackOpUn_okC _) hf

theorem cStackSize_okC (f : Frame) (st : St) (hf : SetOK f) :
    (cStackSize f st).okC := sfPush_okC f st _ hf


theorem cGT_okC (f : Frame) (st : St) (hf : SetOK f) : (cGT f st).okC :=
  binstackf_okC f st _ _ _ _ (pureBin_okC _ (by intro a b e h; simp at h)) hf

theorem cLT_okC (f : Frame) (st : St) (hf : SetOK f) : (cLT f st).okC :=
  binstackf_okC f st _ _ _ _ (pureBin_okC _ (by intro a b e h; simp at h)) hf

theorem cEqual_okC (f : Frame) (st : St) (hf : SetOK f) : (cEqual f st).okC :=
  binstackf_okC f st _ _ _ _ (pureBin_okC _ (by intro a b e h; simp at h)) hf

theorem cAnd_okC (f : Frame) (st : St) (hf : SetOK f) : (cAnd f st).okC :=
  binstackf_okC f st _ _ _ _ (pureBin_okC _ (by intro a b e h; simp at h)) hf

theorem cOr_okC (f : Frame) (st : St) (hf : SetOK f) : (cOr f st).okC :=
  binstackf_okC f st _ _ _ _ (pureBin_okC _ (by intro a b e h; simp at h)) hf

theorem cNot_okC (f : Frame) (st : St) (hf : SetOK f) : (cNot f st).okC :=
  unarystackf_okC f st _ _ _ (pureUn_okC _ (by intro a e h; simp at h)) hf

theorem cSkip_okC (f : Frame) (st : St) (hf : SetOK f) : (cSkip f st).okC := by
  apply unarystackf_okC f st _ _ _ ?_ hf
  constructor
  · intro a f' st' f2 st2 res hf' h
    cases a with
    | num n =>
      simp at h
      have hs : SetOK { f' with ip := f'.ip + pyInt n } := ⟨hf'.1, hf'.2⟩
      exact h.1 ▸ hs
    | str s => simp at h
  · intro a f' st' e h
    cases a with
    | num n => simp at h
    | str s => simp at h; subst h; rfl

theorem cSkipTwo_okC (f : Frame) (st : St) (hf : SetOK f) : (cSkipTwo f st).okC := by
  apply unarystackf_okC f st _ _ _ ?_ hf
  constructor
  · intro a f' st' f2 st2 res hf' h
    cases a with
    | num n =>
      simp at h
      have hs : SetOK { f' with ip := f'.ip + pyInt (qMul n 2) } := ⟨hf'.1, hf'.2⟩
      exact h.1 ▸ hs
    | str s => simp at h
  · intro a f' st' e h
    cases a with
    | num n => simp at h
    | str s => simp at h; subst h; rfl

theorem cInsert_okC (f : Frame) (st : St) (hf : SetOK f) : (cInsert f st).okC := by
  apply binstackf_okC f st _ _ _ _ ?_ hf
  intro a b f' st' e h
  cases b with
  | num w => simp at h
  | str s => simp at h; subst h; rfl

theorem cLshift_okC (f : Frame) (st : St) (hf : SetOK f) : (cLshift f st).okC := by
  apply binstackf_okC f st _ _ _ _ (pureBin_okC _ ?_) hf
  intro a b e h
  cases a <;> cases b <;> simp at h
  · split at h <;> simp at h
    subst h
    rfl
  all_goals (subst h; rfl)

theorem cRshift_okC (f : Frame) (st : St) (hf : SetOK f) : (cRshift f st).okC := by
  apply binstackf_okC f st _ _ _ _ (pureBin_okC _ ?_) hf
  intro a b e h
  cases a <;> cases b <;> simp at h
  · split at h <;> simp at h
    subst h
    rfl
  all_goals (subst h; rfl)

theorem cQuit_okC (f : Frame) (st : St) (hf : SetOK f) : (cQuit f st).okC :=
  trivial

theorem cIsNumber_okC (f : Frame) (st : St) (hf : SetOK f) : (cIsNumber f st).okC :=
  unarystackf_okC f st _ _ _ (pureUn_okC _ (by intro a e h; simp at h)) hf

theorem cIsString_okC (f : Frame) (st : St) (hf : SetOK f) : (cIsString f st).okC :=
  unarystackf_okC f st _ _ _ (pureUn_okC _ (by intro a e h; simp at h)) hf

theorem cBinAnd_okC (f : Frame) (st : St) (hf : SetOK f) : (cBinAnd f st).okC := by
  apply binstackf_okC f st _ _ _ _ (pureBin_okC _ ?_) hf
  intro a b e h
  cases a <;> cases b <;> simp at h <;> subst h <;> rfl

theorem cBinOr_okC (f : Frame) (st : St) (hf : SetOK f) : (cBinOr f st).okC := by
  apply binstackf_okC f st _ _ _ _ (pureBin_okC _ ?_) hf
  intro a b e h
  cases a <;> cases b <;> simp at h <;> subst h <;> rfl

theorem cInteger_okC (f : Frame) (st : St) (hf : SetOK f) : (cInteger f st).okC := by
  apply unarystackf_okC f st _ _ _ (pureUn_okC _ ?_) hf
  intro a e h
  cases a <;> simp at h <;> subst h <;> rfl

theorem cMod_okC (f : Frame) (st : St) (hf : SetOK f) : (cMod f st).okC :=
  binstackf_okC f st _ _ _ _ (pureBin_okC _ pyModV_err) hf

theorem cToChar_okC (f : Frame) (st : St) (hf : SetOK f) : (cToChar f st).okC := by
  apply unarystackf_okC f st _ _ _ (pureUn_okC _ ?_) hf
  intro a e h
  cases a <;> simp at h <;> subst h <;> rfl

theorem cCharAt_okC (f : Frame) (st : St) (hf : SetOK f) : (cCharAt f st).okC := by
  apply binstackf_okC f st _ _ _ _ ?_ hf
  intro a b f' st' e h
  cases a <;> cases b <;> simp at h
  all_goals try (subst h; rfl)
  split at h
  · simp at h
    subst h
    rfl
  · simp at h

theorem cReplaceChar_okC (f : Frame) (st : St) (hf : SetOK f) :
    (cReplaceChar f st).okC := by
  apply tristackf_okC f st _ _ _ _ _ ?_ hf
  intro a b c f' st' e h
  cases a <;> cases b <;> cases c <;> simp at h
  all_goals try (subst h; rfl)
  · split at h
    · simp at h
      subst h
      rfl
    · split at h
      · simp at h
        subst h
        rfl
      · simp at h

theorem cInvertedCopy_okC (f : Frame) (st : St) (hf : SetOK f) :
    (cInvertedCopy f st).okC :=
  unarystackf_okC f st _ _ _ (stackOpUn_okC _) hf

theorem cInvertedMove_okC (f : Frame) (st : St) (hf : SetOK f) :
    (cInvertedMove f st).okC :=
  unarystackf_okC f st _ _ _ (stackOpUn_okC _) hf

theorem cSwap_okC (f : Frame) (st : St) (hf : SetOK f) : (cSwap f st).okC :=
  sfStackOp_okC _ f st hf

theorem cSwap2_okC (f : Frame) (st : St) (hf : SetOK f) : (cSwap2 f st).okC :=
  sfStackOp_okC _ f st hf

theorem cSwap3_okC (f : Frame) (st : St) (hf : SetOK f) : (cSwap3 f st).okC :=
  sfStackOp_okC _ f st hf


theorem set0run_okC (c : Char) (h : Frame → St → CmdRes)
    (hc : set0run c = some h) (f : Frame) (st : St) (hf : SetOK f) :
    (h f st).okC := by
  unfold set0run at hc
  split at hc <;>
    first
      | (simp only [Option.some.injEq] at hc
         subst hc
         first
           | exact activateSet1_okC f st
           | exact activateSet2_okC f st
           | exact activateSet3_okC f st
           | exact cActivateSet_okC f st hf
           | exact cGetSet_okC f st hf
           | exact cNop_okC f st hf)
      | simp at hc

theorem set1run_okC (c : Char) (h : Frame → St → CmdRes)
    (hc : set1run c = some h) (f : Frame) (st : St) (hf : SetOK f) :
    (h f st).okC := by
  unfold set1run at hc
  split at hc <;>
    first
      | (simp only [Option.some.injEq] at hc
         subst hc
         first
           | exact cDuplicate_okC f st hf
           | exact cAdd_okC f st hf
           | exact cSub_okC f st hf
           | exact cMul_okC f st hf
           | exact cDiv_okC f st hf
           | exact cToStr_okC f st hf
           | exact cToNum_okC f st hf
           | exact cConcatenate_okC f st hf
           | exact cOutput_okC f st hf
           | exact cInlineOutput_okC f st hf
           | exact cReadChar_okC f st hf
           | exact cReadLine_okC f st hf
           | exact cSubstring_okC f st hf
           | exact cStrLen_okC f st hf
           | exact cDiscard_okC f st hf
           | exact cCopy_okC f st hf
           | exact cMove_okC f st hf
           | exact cStackSize_okC f st hf)
      | simp at hc

theorem set2run_okC (c : Char) (h : Frame → St → CmdRes)
    (hc : set2run c = some h) (f : Frame) (st : St) (hf : SetOK f) :
    (h f st).okC := by
  unfold set2run at hc
  split at hc <;>
    first
      | (simp only [Option.some.injEq] at hc
         subst hc
         first
           | exact cGT_okC f st hf
           | exact cLT_okC f st hf
           | exact cSkip_okC f st hf
           | exact cSkipTwo_okC f st hf
           | exact cInsert_okC f st hf
           | exact cAnd_okC f st hf
           | exact cOr_okC f st hf
           | exact cNot_okC f st hf
           | exact cEqual_okC f st hf
           | exact cLshift_okC f st hf
           | exact cRshift_okC f st hf)
      | simp at hc

theorem set3run_okC (c : Char) (h : Frame → St → CmdRes)
    (hc : set3run c = some h) (f : Frame) (st : St) (hf : SetOK f) :
    (h f st).okC := by
  unfold set3run at hc
  split at hc <;>
    first
      | (simp only [Option.some.injEq] at hc
         subst hc
         first
           | exact cQuit_okC f st hf
           | exact cIsNumber_okC f st hf
           | exact cIsString_okC f st hf
           | exact cBinAnd_okC f st hf
           | exact cBinOr_okC f st hf
           | exact cInteger_okC f st hf
           | exact cMod_okC f st hf
           | exact cToChar_okC f st hf
           | exact cCharAt_okC f st hf
           | exact cReplaceChar_okC f st hf
           | exact cInvertedCopy_okC f st hf
           | exact cInvertedMove_okC f st hf
           | exact cSwap_okC f st hf
           | exact cSwap2_okC f st hf
           | exact cSwap3_okC f st hf)
      | simp at hc

theorem bumpIp_okC (r : CmdRes) (h : r.okC) : (bumpIp r).okC := by
  cases r with
  | ok f s => exact ⟨h.1, h.2⟩
  | raise e s => exact h
  | quitR s => trivial
  | fuelOut s => trivial

theorem wrapZero_okC (ip : ℤ) (r : CmdRes) (h : r.okC) : (wrapZero ip r).okC := by
  cases r with
  | raise e s => cases e <;> first | exact h | rfl
  | ok f s => exact h
  | quitR s => trivial
  | fuelOut s => trivial

/-- The master invariant: from a frame with a valid active set, every
modelled function preserves validity and never produces — at any depth of
exec wrapping — the dispatcher's "no such set" error. -/
theorem c9_master : ∀ n : Nat,
    (∀ f st, SetOK f → (runI n f st).okR) ∧
    (∀ f st, SetOK f → (stepI n f st).okC) ∧
    (∀ f st, SetOK f → (stepCore n f st).okC) ∧
    (∀ f st, SetOK f → (cExecF n f st).okC) ∧
    (∀ f st s, SetOK f → (execstrF n f st s).okC) ∧
    (∀ f st, SetOK f → (cWhileF n f st).okC) ∧
    (∀ f st, SetOK f → (cRecallWhileF n f st).okC) ∧
    (∀ f st s, SetOK f → (recallLoopF n f st s).okC) := by
  intro n
  induction n with
  | zero =>
    exact ⟨fun f st hf => trivial, fun f st hf => trivial, fun f st hf => trivial,
      fun f st hf => trivial, fun f st s hf => trivial, fun f st hf => trivial,
      fun f st hf => trivial, fun f st s hf => trivial⟩
  | succ n ih =>
    obtain ⟨ihRun, ihStep, ihCore, ihExec, ihExecstr, ihWhile, ihRecall, ihLoop⟩ := ih
    refine ⟨?_, ?_, ?_, ?_, ?_, ?_, ?_, ?_⟩
    · intro f st hf
      simp only [runI]
      split
      · trivial
      · rcases hs : stepI n f st with ⟨f1, st1⟩ | ⟨e, st1⟩ | st1 | st1 <;>
          simp only [hs]
        · have hok := ihStep f st hf
          rw [hs] at hok
          exact ihRun f1 st1 hok
        · have hok := ihStep f st hf
          rw [hs] at hok
          exact hok
        · trivial
        · trivial
    · intro f st hf
      simp only [stepI]
      exact bumpIp_okC _ (ihCore f st hf)
    · intro f st hf
      simp only [stepCore]
      rcases hi : pyItemGet f.code f.ip with _ | item <;> simp only [hi]
      · exact rfl
      · cases item with
        | constant v => exact sfPush_okC f st _ hf
        | command c =>
          rcases h0 : set0run c with _ | h <;> simp only [h0]
          · have hcond : ¬(f.activeset < 0 ∨ 4 ≤ f.activeset) := by
              rcases hf with ⟨ha, hb⟩
              omega
            rw [if_neg hcond]
            by_cases h1 : f.activeset = 1
            · rw [if_pos h1]
              rcases hs1 : set1run c with _ | hh <;> simp only [hs1]
              · exact rfl
              · exact wrapZero_okC _ _ (set1run_okC c hh hs1 f st hf)
            · rw [if_neg h1]
              by_cases h2 : f.activeset = 2
              · rw [if_pos h2]
                by_cases hc' : c = 'c'
                · rw [if_pos hc']
                  exact wrapZero_okC _ _ (ihExec f st hf)
                · rw [if_neg hc']
                  by_cases hw : c = 'w'
                  · rw [if_pos hw]
                    exact wrapZero_okC _ _ (ihWhile f st hf)
                  · rw [if_neg hw]
                    rcases hs2 : set2run c with _ | hh <;> simp only [hs2]
                    · exact rfl
                    · exact wrapZero_okC _ _ (set2run_okC c hh hs2 f st hf)
              · rw [if_neg h2]
                by_cases h3 : f.activeset = 3
                · rw [if_pos h3]
                  by_cases hw : c = 'w'
                  · rw [if_pos hw]
                    exact wrapZero_okC _ _ (ihRecall f st hf)
                  · rw [if_neg hw]
                    rcases hs3 : set3run c with _ | hh <;> simp only [hs3]
                    · exact rfl
                    · exact wrapZero_okC _ _ (set3run_okC c hh hs3 f st hf)
                · rw [if_neg h3]
                  exact rfl
          · exact set0run_okC c h h0 f st hf
    · intro f st hf
      simp only [cExecF]
      rcases hpop : popSf f st with ⟨e, st1⟩ | ⟨a, st1⟩ <;> simp only [hpop]
      · have he := popSf_err f st e st1 hpop
        subst he
        exact rfl
      · cases a with
        | num q => exact rfl
        | str s => exact ihExecstr f st1 s hf
    · intro f st s hf
      simp only [execstrF]
      rcases hp : parse s.toList with pe | items <;> simp only [hp]
      · exact rfl
      · have hchild : SetOK ⟨items, 0, f.activeset⟩ := ⟨hf.1, hf.2⟩
        have hrun := ihRun ⟨items, 0, f.activeset⟩ st hchild
        rcases hr : runI n ⟨items, 0, f.activeset⟩ st with st' | ⟨e, st'⟩ | st' | st
        · exact hf
        · rw [hr] at hrun
          cases e with
          | codeError k ip' => exact hrun
          | zeroDiv => exact rfl
          | pyTypeError m => exact rfl
          | indexErr => exact rfl
          | valueError pe => exact rfl
          | negShift => exact rfl
        · trivial
        · trivial
    · intro f st hf
      simp only [cWhileF]
      rcases hpop : popSf f st with ⟨e, st1⟩ | ⟨val, st1⟩ <;> simp only [hpop]
      · have he := popSf_err f st e st1 hpop
        subst he
        exact rfl
      · by_cases hv : val.truthy
        · rw [if_pos hv]
          rcases hpop2 : popSf f st1 with ⟨e, st2⟩ | ⟨code, st2⟩ <;> simp only [hpop2]
          · have he := popSf_err f st1 e st2 hpop2
            subst he
            exact rfl
          · cases code with
            | num q => exact rfl
            | str s =>
              have hex := ihExecstr f st2 s hf
              rcases hr : execstrF n f st2 s with ⟨f1, st3⟩ | ⟨e, st3⟩ | st3 | st3 <;>
                simp only [hr]
              · rw [hr] at hex
                exact ihWhile f1 st3 hex
              · rw [hr] at hex
                exact hex
              · trivial
              · trivial
        · rw [if_neg hv]
          exact hf
    · intro f st hf
      simp only [cRecallWhileF]
      rcases hpop : popSf f st with ⟨e, st1⟩ | ⟨code, st1⟩ <;> simp only [hpop]
      · have he := popSf_err f st e st1 hpop
        subst he
        exact rfl
      · cases code with
        | num q => exact rfl
        | str s => exact ihLoop f st1 s hf
    · intro f st s hf
      simp only [recallLoopF]
      rcases hpop : popSf f st with ⟨e, st1⟩ | ⟨val, st1⟩ <;> simp only [hpop]
      · have he := popSf_err f st e st1 hpop
        subst he
        exact rfl
      · by_cases hv : val.truthy
        · rw [if_pos hv]
          have hex := ihExecstr f st1 s hf
          rcases hr : execstrF n f st1 s with ⟨f1, st2⟩ | ⟨e, st2⟩ | st2 | st2 <;>
            simp only [hr]
          · rw [hr] at hex
            exact ihLoop f1 st2 s hex
          · rw [hr] at hex
            exact hex
          · trivial
          · trivial
        · rw [if_neg hv]
          exact hf

/-- C9: in every reachable state of the top-level interpreter and of every
child spawned by exec/while/recall-while, the active set is one of 0–3.
The conjuncts: a fresh frame starts with active set 0, which is valid;
`e`/`f`/`g` set it to 1/2/3; `x` validates its popped operand, raising
"no instruction set" when `int(v)` is outside 0–3 and assigning it
otherwise; a child interpreter is spawned at the parent's active set and,
when it completes, returns the parent's frame unchanged; a step from a
valid frame yields a valid frame (and never a "no such set" error at any
exec depth), likewise a full run; consequently `main` can never report a
run-time error that is — or wraps — the dispatcher's "no such set"
branch. -/
theorem c9_active_set_invariant :
    SetOK { code := [], ip := 0, activeset := 0 } ∧
    (∀ f st, activateSet1 f st = CmdRes.ok { f with activeset := 1 } st ∧
             activateSet2 f st = CmdRes.ok { f with activeset := 2 } st ∧
             activateSet3 f st = CmdRes.ok { f with activeset := 3 } st) ∧
    (∀ f st q st1, popSf f st = Except.ok (Value.num q, st1) →
        (4 ≤ pyInt q ∨ pyInt q < 0 →
          cActivateSet f st =
            CmdRes.raise (RawErr.codeError (EKind.noInstrSet (pyInt q)) f.ip) st1) ∧
        (¬(4 ≤ pyInt q ∨ pyInt q < 0) →
          cActivateSet f st = CmdRes.ok { f with activeset := pyInt q } st1)) ∧
    (∀ n f st s items st',
        parse s.toList = Except.ok items →
        runI n { code := items, ip := 0, activeset := f.activeset } st =
          RunRes.done st' →
        execstrF (Nat.succ n) f st s = CmdRes.ok f st') ∧
    (∀ fuel f st, SetOK f → (stepI fuel f st).okC) ∧
    (∀ fuel f st, SetOK f → (runI fuel f st).okR) ∧
    (∀ fuel src inp k ip out,
        runSource fuel src inp = TopRes.runtimeErr k ip out →
        k.noSetB = false) := by
  refine ⟨⟨le_refl 0, by norm_num⟩, fun f st => ⟨rfl, rfl, rfl⟩, ?_, ?_, ?_, ?_, ?_⟩
  · intro f st q st1 hpop
    constructor
    · intro hbad
      simp only [cActivateSet, hpop]
      rw [if_pos hbad]
    · intro hgood
      simp only [cActivateSet, hpop]
      rw [if_neg hgood]
  · intro n f st s items st' hp hr
    simp only [execstrF, hp, hr]
  · intro fuel f st hf
    exact (c9_master fuel).2.1 f st hf
  · intro fuel f st hf
    exact (c9_master fuel).1 f st hf
  · intro fuel src inp k ip out h
    have h0 : SetOK { code := [], ip := 0, activeset := 0 } := ⟨le_refl 0, by norm_num⟩
    unfold runSource at h
    rcases hp : parse src.toList with pe | items
    · rw [hp] at h
      dsimp only at h
      exact absurd h (by simp)
    · rw [hp] at h
      dsimp only at h
      have hok :=
        (c9_master fuel).1 { code := items, ip := 0, activeset := 0 }
          { stack := [], out := "", inp := inp } ⟨le_refl 0, by norm_num⟩
      rcases hr : runI fuel { code := items, ip := 0, activeset := 0 }
          { stack := [], out := "", inp := inp } with st1 | ⟨e, st1⟩ | st1 | st1
      · rw [hr] at h
        dsimp only at h
        exact absurd h (by simp)
      · rw [hr] at h
        rw [hr] at hok
        cases e with
        | codeError k' ip' =>
          dsimp only at h
          simp only [TopRes.runtimeErr.injEq] at h
          rw [← h.1]
          exact hok
        | valueError pe => dsimp only at h; exact absurd h (by simp)
        | zeroDiv => dsimp only at h; exact absurd h (by simp)
        | pyTypeError m => dsimp only at h; exact absurd h (by simp)
        | indexErr => dsimp only at h; exact absurd h (by simp)
        | negShift => dsimp only at h; exact absurd h (by simp)
      · rw [hr] at h
        dsimp only at h
        exact absurd h (by simp)
      · rw [hr] at h
        dsimp only at h
        exact absurd h (by simp)

/-- The components of the active-set invariant hold at concrete inputs:
`x` on a stack holding Number 2 switches to set 2, a fresh frame's step
preserves validity, and the run-time error produced by `x` on an empty
stack (program `x`) is a plain stack error, free of "no such set". -/
theorem c9_witness :
    cActivateSet { code := [], ip := 0, activeset := 0 }
        { stack := [Value.num 2], out := "", inp := [] } =
      CmdRes.ok { code := [], ip := 0, activeset := pyInt 2 }
        { stack := [], out := "", inp := [] } ∧
    (stepI 5 { code := [], ip := 0, activeset := 0 }
        { stack := [], out := "", inp := [] }).okC ∧
    EKind.noSetB EKind.stackErr = false := by
  refine ⟨?_, ?_, ?_⟩
  · exact (c9_active_set_invariant.2.2.1
      { code := [], ip := 0, activeset := 0 }
      { stack := [Value.num 2], out := "", inp := [] } 2
      { stack := [], out := "", inp := [] } (by rfl)).2 (by decide)
  · exact c9_active_set_invariant.2.2.2.2.1 5
      { code := [], ip := 0, activeset := 0 }
      { stack := [], out := "", inp := [] } ⟨by decide, by decide⟩
  · exact c9_active_set_invariant.2.2.2.2.2.2 5 "x" [] EKind.stackErr 0 "" (by decide)

end Gib
